import Mathlib

/-!
# GeoHealthAccess: verification of the accessibility-modeling core

This file embeds the data model and the algorithmic core of the
GeoHealthAccess pipeline (grid-based travel-cost modeling of accessibility
to health services) and proves properties of the embedded operations.

The repository ships the pipeline as three commands (`download`,
`preprocess`, `access`); the computational core is the friction-surface
construction and the multi-source cost-distance (accumulated travel cost)
analysis producing, per scenario, three co-registered output rasters:
accumulated cost, nearest-destination id, and backlink.

Exact arithmetic: every cost produced by the solver is a sum of terms
`average_of(f_current, f_neighbor) * s` with `s ∈ {1, √2}` and integer
friction values, hence lies in the subring `(1/2)·ℤ[√2]` of ℝ.  Costs are
represented exactly by pairs `(a, b)` of integers denoting
`(a + b·√2) / 2`, with a decidable linear order, so that the solver is
fully executable and still admits a faithful real-valued semantics.
-/

namespace GeoHealth

/-- Exact solver cost value: `⟨a, b⟩` denotes the real number
`(a + b * √2) / 2`. -/
structure Q2 where
  a : ℤ
  b : ℤ
deriving DecidableEq, Repr

namespace Q2

/-- Real value denoted by a `Q2`. -/
noncomputable def val (x : Q2) : ℝ := ((x.a : ℝ) + (x.b : ℝ) * Real.sqrt 2) / 2

/-- Exact addition. -/
def add (x y : Q2) : Q2 := ⟨x.a + y.a, x.b + y.b⟩

/-- Exact zero. -/
def zero : Q2 := ⟨0, 0⟩

/-- Nonnegativity of `(a + b·√2) / 2`, decided by integer arithmetic. -/
def nonneg (x : Q2) : Prop :=
  (0 ≤ x.a ∧ 0 ≤ x.b) ∨
  (0 ≤ x.a ∧ x.b < 0 ∧ 2 * (x.b * x.b) ≤ x.a * x.a) ∨
  (x.a < 0 ∧ 0 ≤ x.b ∧ x.a * x.a ≤ 2 * (x.b * x.b))

instance (x : Q2) : Decidable (nonneg x) := by unfold nonneg; infer_instance

/-- Decidable exact order on solver costs. -/
def le (x y : Q2) : Prop := nonneg ⟨y.a - x.a, y.b - x.b⟩

/-- Decidable exact strict order on solver costs. -/
def lt (x y : Q2) : Prop := ¬ le y x

instance (x y : Q2) : Decidable (le x y) := by unfold le; infer_instance

instance (x y : Q2) : Decidable (lt x y) := by unfold lt; infer_instance

end Q2

/-- A friction surface over the shared grid: per-cell traversal cost
(time to cross the cell), `none` being the impassable sentinel.  Cells are
addressed by (row, column); out-of-grid addresses carry no data. -/
structure FrictionGrid where
  width : Nat
  height : Nat
  friction : Nat → Nat → Option ℤ

/-- One destination point snapped to the grid: row, column and numeric id. -/
structure Dest where
  row : Nat
  col : Nat
  id : Nat
deriving DecidableEq, Repr

/-- Backlink raster value: either the terminal marker of a destination
cell, or the (row, column) offset pointing to the next cell on the
lowest-cost path toward the nearest destination. -/
inductive Backstep where
  | dest : Backstep
  | dir : Int → Int → Backstep
deriving DecidableEq, Repr

/-- A priority-queue entry: tentative accumulated cost, the id of the
destination whose expansion produced it, and the flat cell index. -/
structure Entry where
  cost : Q2
  id : Nat
  cell : Nat
deriving DecidableEq, Repr

/-- Per-cell output record of the solver: flat cell index, accumulated
cost, nearest-destination id and backlink. -/
structure CellRec where
  cell : Nat
  cost : Q2
  nid : Nat
  bs : Backstep
deriving DecidableEq, Repr

/-- Solver state: best-known output records, the settled bitmap (as the
list of settled cell indices) and the priority queue.  The queue is kept
reprioritized: at most one entry per cell, always carrying the cell's
best-known cost and id, and never an entry for a settled cell. -/
structure SState where
  recs : List CellRec
  settled : List Nat
  queue : List Entry
deriving DecidableEq, Repr

/-- Best-known record of a cell, if any. -/
def findRec (recs : List CellRec) (i : Nat) : Option CellRec :=
  recs.find? fun u => u.cell == i

/-- Accumulated-cost raster view of a state. -/
def SState.cost (st : SState) (i : Nat) : Option Q2 :=
  (findRec st.recs i).map CellRec.cost

/-- Nearest-id raster view of a state. -/
def SState.near (st : SState) (i : Nat) : Option Nat :=
  (findRec st.recs i).map CellRec.nid

/-- Backlink raster view of a state. -/
def SState.back (st : SState) (i : Nat) : Option Backstep :=
  (findRec st.recs i).map CellRec.bs

/-- Neighbor offsets of the configured connectivity: (row offset, column
offset, diagonal flag).  8-connectivity by default, 4-connectivity as the
configurable restriction. -/
def offsets (eight : Bool) : List (Int × Int × Bool) :=
  if eight then
    [(-1, -1, true), (-1, 0, false), (-1, 1, true), (0, -1, false),
     (0, 1, false), (1, -1, true), (1, 0, false), (1, 1, true)]
  else
    [(-1, 0, false), (0, -1, false), (0, 1, false), (1, 0, false)]

/-- Flat cell index of a destination. -/
def cellIdx (g : FrictionGrid) (d : Dest) : Nat := d.row * g.width + d.col

/-- The destination lies within the grid bounds. -/
def inBoundsDest (g : FrictionGrid) (d : Dest) : Prop :=
  d.row < g.height ∧ d.col < g.width

instance (g : FrictionGrid) (d : Dest) : Decidable (inBoundsDest g d) := by
  unfold inBoundsDest; infer_instance

/-- The destination cell is not impassable. -/
def passableDest (g : FrictionGrid) (d : Dest) : Prop :=
  (g.friction d.row d.col).isSome

instance (g : FrictionGrid) (d : Dest) : Decidable (passableDest g d) := by
  unfold passableDest; infer_instance

/-- Deduplication of destinations by (row, column), first occurrence
winning; `seen` accumulates the cells already kept. -/
def dedupDest : List Dest → List (Nat × Nat) → List Dest
  | [], _ => []
  | d :: ds, seen =>
    if (d.row, d.col) ∈ seen then dedupDest ds seen
    else d :: dedupDest ds ((d.row, d.col) :: seen)

/-- The seed set of a solver run: destinations that are in bounds and not
impassable (impassable ones are excluded from the seed set rather than
aborting the run), deduplicated by (row, column). -/
def seedList (g : FrictionGrid) (dests : List Dest) : List Dest :=
  dedupDest
    (dests.filter fun d => decide (inBoundsDest g d) && decide (passableDest g d)) []

/-- Initial solver state: every seed cell simultaneously receives
accumulated cost 0, its own id and the destination terminal backlink, and
one queue entry of cost 0. -/
def seedState (g : FrictionGrid) (seeds : List Dest) : SState :=
  { recs := seeds.map fun d => ⟨cellIdx g d, Q2.zero, d.id, Backstep.dest⟩
    settled := []
    queue := seeds.map fun d => ⟨Q2.zero, d.id, cellIdx g d⟩ }

/-- Pop order of the priority queue: lowest tentative cost first, exact
cost ties broken by the lower numeric id, then by cell index. -/
def entryLe (x y : Entry) : Prop :=
  Q2.lt x.cost y.cost ∨
  (x.cost = y.cost ∧ (x.id < y.id ∨ (x.id = y.id ∧ x.cell ≤ y.cell)))

instance (x y : Entry) : Decidable (entryLe x y) := by unfold entryLe; infer_instance

/-- Least queue entry in pop order. -/
def minEntry (e : Entry) : List Entry → Entry
  | [] => e
  | f :: fs => if entryLe e f then minEntry e fs else minEntry f fs

/-- Edge weight of one expansion step: the average of the two cells'
friction values, scaled by 1 for an orthogonal step and by √2 for a
diagonal step.  In the `(a + b√2)/2` representation the average
`(fc + fn)/2` is `⟨fc + fn, 0⟩` and its √2-multiple is `⟨0, fc + fn⟩`. -/
def stepWeight (fc fn : ℤ) (diag : Bool) : Q2 :=
  if diag then ⟨0, fc + fn⟩ else ⟨fc + fn, 0⟩

/-- Candidate cost for moving from a settled cell of accumulated cost
`cur` and friction `fc` to a neighbor of friction `fn`. -/
def candidateCost (cur : Q2) (fc fn : ℤ) (diag : Bool) : Q2 :=
  cur.add (stepWeight fc fn diag)

/-- The candidate strictly improves the best-known cost of cell `i` (an
unrecorded cell counts as +∞). -/
def improvesB (st : SState) (i : Nat) (cand : Q2) : Bool :=
  match st.cost i with
  | none => true
  | some old => decide (Q2.lt cand old)

/-- Apply an improvement at cell `i`: update its output record (cost,
nearest id, backlink toward the predecessor) and reprioritize its queue
entry. -/
def relaxApply (st : SState) (i : Nat) (cand : Q2) (cid : Nat)
    (dr dc : Int) : SState :=
  { st with
    recs := ⟨i, cand, cid, Backstep.dir dr dc⟩ ::
      st.recs.filter fun u => !(u.cell == i)
    queue := ⟨cand, cid, i⟩ :: st.queue.filter fun e => !(e.cell == i) }

/-- Relax the in-bounds neighbor cell `i` of friction `nf`: settled
neighbors are skipped, and the update happens only on strict
improvement. -/
def relaxTarget (st : SState) (cq : Q2) (cf : ℤ) (cid : Nat)
    (o : Int × Int × Bool) (i : Nat) (nf : ℤ) : SState :=
  if i ∈ st.settled then st
  else if improvesB st i (candidateCost cq cf nf o.2.2) then
    relaxApply st i (candidateCost cq cf nf o.2.2) cid (-o.1) (-o.2.1)
  else st

/-- Relax one neighbor (given by offset `o`) of the just-settled cell at
(row, column) = (`r`, `c`), friction `cf`, accumulated cost `cq`, nearest
id `cid`.  Out-of-bounds, impassable and settled neighbors are skipped;
otherwise, if the candidate cost strictly improves the neighbor's
best-known cost, its record is updated and its queue entry
reprioritized. -/
def relaxOne (g : FrictionGrid) (cf : ℤ) (cq : Q2) (cid : Nat) (r c : Nat)
    (st : SState) (o : Int × Int × Bool) : SState :=
  if 0 ≤ (r : Int) + o.1 ∧ (r : Int) + o.1 < (g.height : Int) ∧
      0 ≤ (c : Int) + o.2.1 ∧ (c : Int) + o.2.1 < (g.width : Int) then
    match g.friction ((r : Int) + o.1).toNat ((c : Int) + o.2.1).toNat with
    | none => st
    | some nf =>
      relaxTarget st cq cf cid o
        (((r : Int) + o.1).toNat * g.width + ((c : Int) + o.2.1).toNat) nf
  else st

/-- Expansion of a settled cell: relax each of its up-to-8 neighbors. -/
def expandCell (g : FrictionGrid) (eight : Bool) (st : SState) (i cid : Nat)
    (cq : Q2) : SState :=
  match g.friction (i / g.width) (i % g.width) with
  | none => st
  | some cf =>
    (offsets eight).foldl (relaxOne g cf cq cid (i / g.width) (i % g.width)) st

/-- One iteration of the search: pop the lowest-cost unsettled cell, mark
it settled, and relax its neighbors. -/
def loopStep (g : FrictionGrid) (eight : Bool) (st : SState) : SState :=
  match st.queue with
  | [] => st
  | e :: es =>
    let m := minEntry e es
    let st1 : SState :=
      { st with settled := m.cell :: st.settled, queue := (e :: es).erase m }
    expandCell g eight st1 m.cell m.id m.cost

/-- The search: iterate until the queue is empty (or the fuel, an upper
bound on the number of settled cells, runs out). -/
def loop (g : FrictionGrid) (eight : Bool) : Nat → SState → SState
  | 0, st => st
  | fuel + 1, st =>
    if st.queue.isEmpty then st else loop g eight fuel (loopStep g eight st)

/-- Error taxonomy of a solver run. -/
inductive SolveError where
  | emptyDestinationSet : SolveError
deriving DecidableEq, Repr

/-- The three co-registered output rasters of one solver run. -/
structure CostResult where
  cost : Nat → Option Q2
  near : Nat → Option Nat
  back : Nat → Option Backstep

/-- Full solver run returning the final internal state, or `none` when the
seed set is empty. -/
def accessRun (g : FrictionGrid) (eight : Bool) (dests : List Dest) :
    Option SState :=
  if (seedList g dests).isEmpty then none
  else some (loop g eight (g.width * g.height + 1) (seedState g (seedList g dests)))

/-- The accessibility solver: fails with `emptyDestinationSet` when no
destination cell lies within the grid bounds and is not impassable;
otherwise seeds all destinations at cost 0 and runs the multi-source
uniform-cost search, producing the cost, nearest-id and backlink
rasters. -/
def accessSolve (g : FrictionGrid) (eight : Bool) (dests : List Dest) :
    Except SolveError CostResult :=
  match accessRun g eight dests with
  | none => .error .emptyDestinationSet
  | some st => .ok ⟨st.cost, st.near, st.back⟩

/-- Cost raster of a solver outcome (no data on error). -/
def resCost (x : Except SolveError CostResult) (i : Nat) : Option Q2 :=
  match x with
  | .ok r => r.cost i
  | .error _ => none

/-- Nearest-id raster of a solver outcome (no data on error). -/
def resNear (x : Except SolveError CostResult) (i : Nat) : Option Nat :=
  match x with
  | .ok r => r.near i
  | .error _ => none

/-- Backlink raster of a solver outcome (no data on error). -/
def resBack (x : Except SolveError CostResult) (i : Nat) : Option Backstep :=
  match x with
  | .ok r => r.back i
  | .error _ => none

/-!
## Friction Surface Builder

Modelled from the spec: the Python module building the per-scenario
friction surface (land cover, rasterized transport network and surface
water combined through a travel-speed table) is not part of the shipped
sources; its per-cell precedence is taken from the specification: water
marks the cell impassable unless the network layer holds the reserved
bridge/crossing override category; otherwise a mapped network category's
speed wins over a mapped land-cover category's speed, which wins over the
default speed; friction is pixel size divided by speed.
-/

/-- Travel-speed lookup: speeds by network category and by land-cover
category, plus the default speed for unmapped categories. -/
structure SpeedTable where
  network : Nat → Option ℚ
  landcover : Nat → Option ℚ
  deflt : ℚ

/-- Modelled from the spec: per-cell speed assignment of the Friction
Surface Builder.  `bridge` is the reserved network override category;
`water` the water-mask bit; `net` and `lc` the network and land-cover
categories at the cell.  `none` is the impassable outcome. -/
def assignSpeed (tbl : SpeedTable) (bridge : Nat) (water : Bool)
    (net lc : Option Nat) : Option ℚ :=
  if water ∧ net ≠ some bridge then none
  else
    match net.bind tbl.network with
    | some s => some s
    | none =>
      match lc.bind tbl.landcover with
      | some s => some s
      | none => some tbl.deflt

/-- Modelled from the spec: per-cell friction value (traversal time) of
the Friction Surface Builder, `pixel ÷ assigned speed`, `none` being the
impassable sentinel. -/
def buildFriction (pixel : ℚ) (tbl : SpeedTable) (bridge : Nat)
    (water : Bool) (net lc : Option Nat) : Option ℚ :=
  (assignSpeed tbl bridge water net lc).map fun s => pixel / s

/-!
## Declared cost-distance engine

The shipped sources declare the system dependencies of the package and the
purpose of each; the cost-distance analysis is attributed to an external
tool there (README/installation documents: `gdal` processes raster data,
`osmium-tool` processes OpenStreetMap data, `grass` performs the cost
distance analysis).
-/

/-- System dependencies declared by the repository installation
documents, with the declared purpose of each. -/
def systemDependencies : List (String × String) :=
  [("gdal", "process raster data"),
   ("osmium-tool", "process OpenStreetMap data"),
   ("grass", "perform a cost distance analysis")]

/-- The external tool the repository declares as performing the cost
distance analysis, if any. -/
def costDistanceEngine : Option String :=
  (systemDependencies.find? fun p => p.2 == "perform a cost distance analysis").map
    fun p => p.1

/-!
## The `access` command's defaults

Modelled from the shipped usage document: the `access` command's CLI layer
is not part of the shipped sources; per the usage document, when no
destination points are provided, health facilities extracted from
OpenStreetMap are used as target points, and by default only the car
scenario is enabled.
-/

/-- Destination source of an `access` invocation. -/
inductive DestSource where
  | provided : DestSource
  | osmHealthFacilities : DestSource
deriving DecidableEq, Repr

/-- Travel scenario of an `access` invocation. -/
inductive Scenario where
  | car : Scenario
  | walk : Scenario
  | bike : Scenario
deriving DecidableEq, Repr

/-- Options of the `access` command relevant here: the three scenario
flags (absent means the documented default) and whether destination
points were supplied. -/
structure AccessOpts where
  car : Option Bool
  walk : Option Bool
  bike : Option Bool
  destinations : Option Unit

/-- Modelled from the spec: the destination set used by `access` — the
provided points when given, else health facilities extracted from
OpenStreetMap. -/
def accessDestSource (opts : AccessOpts) : DestSource :=
  match opts.destinations with
  | some _ => DestSource.provided
  | none => DestSource.osmHealthFacilities

/-- Modelled from the spec: the scenarios `access` runs — car defaults to
enabled, walk and bike to disabled. -/
def accessScenarios (opts : AccessOpts) : List Scenario :=
  (if opts.car.getD true then [Scenario.car] else []) ++
  (if opts.walk.getD false then [Scenario.walk] else []) ++
  (if opts.bike.getD false then [Scenario.bike] else [])

/-!
## Real-valued semantics of the exact cost arithmetic
-/

/-- Sign characterization of `a + b·√2` by the signs and squares of the
coefficients. -/
theorem sqrt2_comb_nonneg_iff (a b : ℝ) :
    0 ≤ a + b * Real.sqrt 2 ↔
      (0 ≤ a ∧ 0 ≤ b) ∨ (0 ≤ a ∧ b < 0 ∧ 2 * (b * b) ≤ a * a) ∨
        (a < 0 ∧ 0 ≤ b ∧ a * a ≤ 2 * (b * b)) := by
  have hs0 : (0 : ℝ) ≤ Real.sqrt 2 := Real.sqrt_nonneg 2
  have hsp : (0 : ℝ) < Real.sqrt 2 := Real.sqrt_pos.mpr (by norm_num)
  have hs2 : Real.sqrt 2 * Real.sqrt 2 = 2 := Real.mul_self_sqrt (by norm_num)
  constructor
  · intro h
    rcases le_or_lt 0 a with ha | ha <;> rcases le_or_lt 0 b with hb | hb
    · exact Or.inl ⟨ha, hb⟩
    · refine Or.inr (Or.inl ⟨ha, hb, ?_⟩)
      have hfac : (0 : ℝ) ≤ a - b * Real.sqrt 2 := by nlinarith
      nlinarith [mul_nonneg hfac h]
    · refine Or.inr (Or.inr ⟨ha, hb, ?_⟩)
      have hfac : (0 : ℝ) ≤ b * Real.sqrt 2 - a := by nlinarith
      nlinarith [mul_nonneg hfac h]
    · exfalso
      have : b * Real.sqrt 2 < 0 := mul_neg_of_neg_of_pos hb hsp
      linarith
  · rintro (⟨ha, hb⟩ | ⟨ha, hb, h2⟩ | ⟨ha, hb, h2⟩)
    · exact add_nonneg ha (mul_nonneg hb hs0)
    · by_contra hneg
      push_neg at hneg
      have hbs : b * Real.sqrt 2 < 0 := mul_neg_of_neg_of_pos hb hsp
      have hfac : (0 : ℝ) < a - b * Real.sqrt 2 := by linarith
      nlinarith [mul_pos (neg_pos.mpr hneg) hfac]
    · by_contra hneg
      push_neg at hneg
      have hbs : (0 : ℝ) ≤ b * Real.sqrt 2 := mul_nonneg hb hs0
      have hfac : (0 : ℝ) < b * Real.sqrt 2 - a := by linarith
      nlinarith [mul_pos (neg_pos.mpr hneg) hfac]

namespace Q2

/-- The decidable sign test agrees with the real-valued semantics. -/
theorem nonneg_iff (x : Q2) : x.nonneg ↔ 0 ≤ x.val := by
  have hhalf : (0 : ℝ) ≤ ((x.a : ℝ) + (x.b : ℝ) * Real.sqrt 2) / 2 ↔
      0 ≤ (x.a : ℝ) + (x.b : ℝ) * Real.sqrt 2 :=
    ⟨fun h => by linarith, fun h => by linarith⟩
  rw [val, hhalf, sqrt2_comb_nonneg_iff]
  unfold nonneg
  constructor
  · intro h; exact_mod_cast h
  · intro h; exact_mod_cast h

/-- The decidable order agrees with the real-valued semantics. -/
theorem le_iff (x y : Q2) : x.le y ↔ x.val ≤ y.val := by
  have h := nonneg_iff ⟨y.a - x.a, y.b - x.b⟩
  rw [le, h]
  have hval : val ⟨y.a - x.a, y.b - x.b⟩ = y.val - x.val := by
    unfold val; push_cast; ring
  rw [hval, sub_nonneg]

/-- The decidable strict order agrees with the real-valued semantics. -/
theorem lt_iff (x y : Q2) : x.lt y ↔ x.val < y.val := by
  rw [lt, le_iff, not_le]

/-- The real-valued semantics is injective: two exact costs with the same
real value are equal (irrationality of √2). -/
theorem val_inj {x y : Q2} (h : x.val = y.val) : x = y := by
  have hs : (x.a : ℝ) + (x.b : ℝ) * Real.sqrt 2 =
      (y.a : ℝ) + (y.b : ℝ) * Real.sqrt 2 := by
    unfold val at h; linarith
  by_cases hb : x.b = y.b
  · have haR : (x.a : ℝ) = (y.a : ℝ) := by rw [hb] at hs; linarith
    have ha : x.a = y.a := by exact_mod_cast haR
    cases x; cases y; simp_all
  · exfalso
    apply irrational_sqrt_two
    refine ⟨((y.a - x.a : ℤ) : ℚ) / ((x.b - y.b : ℤ) : ℚ), ?_⟩
    have hbR : ((x.b : ℝ) - (y.b : ℝ)) ≠ 0 := by
      intro h0
      exact hb (by exact_mod_cast sub_eq_zero.mp h0)
    push_cast
    field_simp
    linarith [hs]

/-- Addition is interpreted as real addition. -/
theorem val_add (x y : Q2) : (x.add y).val = x.val + y.val := by
  unfold val add; push_cast; ring

/-- Zero is interpreted as the real zero. -/
theorem val_zero : (zero).val = 0 := by
  unfold val zero; norm_num

/-- The step weight is interpreted as the average of the two frictions
scaled by 1 (orthogonal) or √2 (diagonal). -/
theorem val_stepWeight (fc fn : ℤ) (diag : Bool) :
    (stepWeight fc fn diag).val =
      (((fc : ℝ) + (fn : ℝ)) / 2) * (if diag then Real.sqrt 2 else 1) := by
  cases diag
  all_goals simp [stepWeight, val]
  all_goals ring

/-- The step weight of nonnegative frictions is nonnegative. -/
theorem stepWeight_nonneg {fc fn : ℤ} (hfc : 0 ≤ fc) (hfn : 0 ≤ fn)
    (diag : Bool) : (stepWeight fc fn diag).nonneg := by
  rw [nonneg_iff, val_stepWeight]
  have h1 : (0 : ℝ) ≤ (fc : ℝ) + (fn : ℝ) := by positivity
  have h2 : (0 : ℝ) ≤ (if diag then Real.sqrt 2 else 1) := by
    cases diag <;> simp [Real.sqrt_nonneg]
  positivity

/-- The candidate cost is interpreted as current cost plus the average of
the two frictions scaled by the connectivity factor. -/
theorem val_candidateCost (cur : Q2) (fc fn : ℤ) (diag : Bool) :
    (candidateCost cur fc fn diag).val =
      cur.val + (((fc : ℝ) + (fn : ℝ)) / 2) * (if diag then Real.sqrt 2 else 1) := by
  rw [candidateCost, val_add, val_stepWeight]

end Q2

/-!
## The pop order is a total order; the popped entry is the least one
-/

/-- The pop order is reflexive. -/
theorem entryLe_refl (x : Entry) : entryLe x x := by
  right; exact ⟨rfl, Or.inr ⟨rfl, le_rfl⟩⟩

/-- The pop order is total. -/
theorem entryLe_total (x y : Entry) : entryLe x y ∨ entryLe y x := by
  rcases lt_trichotomy x.cost.val y.cost.val with h | h | h
  · exact Or.inl (Or.inl ((Q2.lt_iff _ _).mpr h))
  · have hc : x.cost = y.cost := Q2.val_inj h
    rcases Nat.lt_trichotomy x.id y.id with hi | hi | hi
    · exact Or.inl (Or.inr ⟨hc, Or.inl hi⟩)
    · rcases Nat.le_total x.cell y.cell with hl | hl
      · exact Or.inl (Or.inr ⟨hc, Or.inr ⟨hi, hl⟩⟩)
      · exact Or.inr (Or.inr ⟨hc.symm, Or.inr ⟨hi.symm, hl⟩⟩)
    · exact Or.inr (Or.inr ⟨hc.symm, Or.inl hi⟩)
  · exact Or.inr (Or.inl ((Q2.lt_iff _ _).mpr h))

/-- The pop order is transitive. -/
theorem entryLe_trans {x y z : Entry} (hxy : entryLe x y) (hyz : entryLe y z) :
    entryLe x z := by
  rcases hxy with h1 | ⟨hc1, h1⟩ <;> rcases hyz with h2 | ⟨hc2, h2⟩
  · exact Or.inl ((Q2.lt_iff _ _).mpr
      (lt_trans ((Q2.lt_iff _ _).mp h1) ((Q2.lt_iff _ _).mp h2)))
  · exact Or.inl (hc2 ▸ h1)
  · exact Or.inl (hc1 ▸ h2)
  · refine Or.inr ⟨hc1.trans hc2, ?_⟩
    rcases h1 with h1 | ⟨hi1, hl1⟩ <;> rcases h2 with h2 | ⟨hi2, hl2⟩
    · exact Or.inl (lt_trans h1 h2)
    · exact Or.inl (hi2 ▸ h1)
    · exact Or.inl (hi1 ▸ h2)
    · exact Or.inr ⟨hi1.trans hi2, hl1.trans hl2⟩

/-- The pop order is antisymmetric: two entries below each other are
equal. -/
theorem entryLe_antisymm {x y : Entry} (hxy : entryLe x y) (hyx : entryLe y x) :
    x = y := by
  have hc : x.cost = y.cost := by
    rcases hxy with h1 | ⟨hc1, _⟩
    · rcases hyx with h2 | ⟨hc2, _⟩
      · exact absurd ((Q2.lt_iff _ _).mp h2)
          (not_lt_of_gt ((Q2.lt_iff _ _).mp h1))
      · exact hc2.symm
    · exact hc1
  have hnotlt : ¬ Q2.lt x.cost y.cost := by
    rw [Q2.lt_iff, hc]; exact lt_irrefl _
  have hnotlt' : ¬ Q2.lt y.cost x.cost := by
    rw [Q2.lt_iff, hc]; exact lt_irrefl _
  rcases hxy with h1 | ⟨_, h1⟩
  · exact absurd h1 hnotlt
  rcases hyx with h2 | ⟨_, h2⟩
  · exact absurd h2 hnotlt'
  have hi : x.id = y.id := by
    rcases h1 with h1 | ⟨hi1, _⟩ <;> rcases h2 with h2 | ⟨hi2, _⟩
    · omega
    · omega
    · omega
    · omega
  have hl : x.cell = y.cell := by
    rcases h1 with h1 | ⟨_, hl1⟩ <;> rcases h2 with h2 | ⟨_, hl2⟩
    · omega
    · omega
    · omega
    · omega
  cases x; cases y; simp_all

/-- The popped entry is a member of the queue. -/
theorem minEntry_mem (e : Entry) (l : List Entry) : minEntry e l ∈ e :: l := by
  induction l generalizing e with
  | nil => simp [minEntry]
  | cons f fs ih =>
    rw [minEntry]
    split
    · rcases List.mem_cons.mp (ih e) with h | h
      · simp [h]
      · simp [h]
    · rcases List.mem_cons.mp (ih f) with h | h
      · simp [h]
      · simp [h]

/-- The popped entry is below every entry in the queue. -/
theorem minEntry_le (e : Entry) (l : List Entry) :
    ∀ x ∈ e :: l, entryLe (minEntry e l) x := by
  induction l generalizing e with
  | nil =>
    intro x hx
    rw [List.mem_singleton] at hx
    rw [hx, minEntry]
    exact entryLe_refl e
  | cons f fs ih =>
    intro x hx
    rw [minEntry]
    split
    · rename_i hef
      rcases List.mem_cons.mp hx with hx | hx
      · exact hx ▸ ih e e (by simp)
      rcases List.mem_cons.mp hx with hx | hx
      · exact hx ▸ entryLe_trans (ih e e (by simp)) hef
      · exact ih e x (by simp [hx])
    · rename_i hef
      have hfe : entryLe f e := (entryLe_total e f).resolve_left hef
      rcases List.mem_cons.mp hx with hx | hx
      · exact hx ▸ entryLe_trans (ih f f (by simp)) hfe
      rcases List.mem_cons.mp hx with hx | hx
      · exact hx ▸ ih f f (by simp)
      · exact ih f x (by simp [hx])

/-- Two permuted queues pop the same entry. -/
theorem minEntry_eq_of_perm {e f : Entry} {l k : List Entry}
    (h : (e :: l).Perm (f :: k)) : minEntry e l = minEntry f k := by
  apply entryLe_antisymm
  · exact minEntry_le e l _ (h.mem_iff.mpr (minEntry_mem f k))
  · exact minEntry_le f k _ (h.mem_iff.mp (minEntry_mem e l))

/-!
## Grid geometry
-/

/-- Friction of a cell given by flat index. -/
def frictionIdx (g : FrictionGrid) (i : Nat) : Option ℤ :=
  g.friction (i / g.width) (i % g.width)

/-- The cell the given (row, column) offset leads to from cell `i`, when
in bounds. -/
def shiftCell (g : FrictionGrid) (i : Nat) (dr dc : Int) : Option Nat :=
  let r : Int := ((i / g.width : Nat) : Int) + dr
  let c : Int := ((i % g.width : Nat) : Int) + dc
  if 0 ≤ r ∧ r < (g.height : Int) ∧ 0 ≤ c ∧ c < (g.width : Int) then
    some (r.toNat * g.width + c.toNat)
  else none

/-- The offset `(dr, dc)` from cell `i` lands, in bounds, on a
non-impassable cell. -/
def passableShift (g : FrictionGrid) (i : Nat) (dr dc : Int) : Bool :=
  match shiftCell g i dr dc with
  | none => false
  | some p => (frictionIdx g p).isSome

/-- The cell `i` has an in-bounds, non-impassable neighbor under the
configured connectivity. -/
def hasPassableNbr (g : FrictionGrid) (eight : Bool) (i : Nat) : Prop :=
  ∃ o ∈ offsets eight, passableShift g i o.1 o.2.1 = true

instance (g : FrictionGrid) (eight : Bool) (i : Nat) :
    Decidable (hasPassableNbr g eight i) := by
  unfold hasPassableNbr
  infer_instance

/-- The cell `i` is the cell of some seed destination. -/
def isSeedCell (g : FrictionGrid) (seeds : List Dest) (i : Nat) : Prop :=
  ∃ d ∈ seeds, cellIdx g d = i

/-- Row of a flat index. -/
theorem decode_row {w : Nat} (a b : Nat) (hb : b < w) : (a * w + b) / w = a := by
  rw [Nat.mul_comm, Nat.mul_add_div (lt_of_le_of_lt (Nat.zero_le b) hb),
    Nat.div_eq_of_lt hb, Nat.add_zero]

/-- Column of a flat index. -/
theorem decode_col {w : Nat} (a b : Nat) (hb : b < w) : (a * w + b) % w = b := by
  rw [Nat.mul_comm, Nat.mul_add_mod, Nat.mod_eq_of_lt hb]

/-- Flat indices of in-bounds cells are below the cell count. -/
theorem encode_lt {w h : Nat} {a b : Nat} (ha : a < h) (hb : b < w) :
    a * w + b < w * h := by
  calc a * w + b < a * w + w := Nat.add_lt_add_left hb _
  _ = (a + 1) * w := by ring
  _ ≤ h * w := Nat.mul_le_mul_right w (Nat.succ_le_of_lt ha)
  _ = w * h := Nat.mul_comm h w

/-- Recomposition of a flat index from its row and column. -/
theorem decode_recompose {w : Nat} (i : Nat) : (i / w) * w + i % w = i := by
  rw [Nat.mul_comm]
  exact Nat.div_add_mod i w

/-- The row of an in-bounds flat index is in bounds. -/
theorem row_lt_of_lt {w h i : Nat} (hi : i < w * h) : i / w < h := by
  rcases Nat.eq_zero_or_pos w with hw | hw
  · subst hw; simp at hi
  · have hi2 : i < h * w := by rw [Nat.mul_comm] at hi; exact hi
    exact (Nat.div_lt_iff_lt_mul hw).mpr hi2

/-- The column of a flat index is in bounds when the width is positive. -/
theorem col_lt_of_pos {w i : Nat} (hw : 0 < w) : i % w < w := Nat.mod_lt i hw

/-- Destinations at distinct (row, column) have distinct flat indices. -/
theorem cellIdx_inj {g : FrictionGrid} {x y : Dest} (hx : inBoundsDest g x)
    (hy : inBoundsDest g y) (h : cellIdx g x = cellIdx g y) :
    (x.row, x.col) = (y.row, y.col) := by
  unfold cellIdx at h
  have hr : x.row = y.row := by
    have h1 := decode_row x.row x.col hx.2
    have h2 := decode_row y.row y.col hy.2
    rw [← h1, ← h2, h]
  have hc : x.col = y.col := by
    have h1 := decode_col x.row x.col hx.2
    have h2 := decode_col y.row y.col hy.2
    rw [← h1, ← h2, h]
  rw [hr, hc]

/-!
## Record lookup
-/

/-- Lookup at the just-updated cell returns the new record. -/
theorem findRec_cons_self (u : CellRec) (l : List CellRec) :
    findRec (u :: l) u.cell = some u := by
  unfold findRec
  rw [List.find?_cons_of_pos]
  simp

/-- Lookup away from the head record skips it. -/
theorem findRec_cons_ne (u : CellRec) (l : List CellRec) {j : Nat}
    (h : u.cell ≠ j) : findRec (u :: l) j = findRec l j := by
  unfold findRec
  rw [List.find?_cons_of_neg]
  simp [h]

/-- Dropping all records of cell `i` does not change lookups at other
cells. -/
theorem findRec_filter_ne (l : List CellRec) (i : Nat) {j : Nat} (h : j ≠ i) :
    findRec (l.filter fun u => !(u.cell == i)) j = findRec l j := by
  induction l with
  | nil => rfl
  | cons u us ih =>
    by_cases hui : u.cell = i
    · rw [List.filter_cons_of_neg (by simp [hui]), ih,
        findRec_cons_ne u us (by rw [hui]; exact fun hh => h hh.symm)]
    · rw [List.filter_cons_of_pos (by simp [hui])]
      by_cases huj : u.cell = j
      · unfold findRec
        rw [List.find?_cons_of_pos _ (by simp [huj]),
          List.find?_cons_of_pos _ (by simp [huj])]
      · rw [findRec_cons_ne u _ huj, findRec_cons_ne u us huj, ih]

/-- A found record is a member with the looked-up cell. -/
theorem findRec_mem {l : List CellRec} {i : Nat} {u : CellRec}
    (h : findRec l i = some u) : u ∈ l ∧ u.cell = i := by
  refine ⟨List.mem_of_find?_eq_some h, ?_⟩
  have := List.find?_some h
  simpa using this

/-- A cell with no record among pairwise-distinct records, after the
update at cell `i`: lookup is the new record at `i` and unchanged
elsewhere. -/
theorem findRec_update (l : List CellRec) (u : CellRec) (j : Nat) :
    findRec (u :: l.filter fun v => !(v.cell == u.cell)) j =
      if j = u.cell then some u else findRec l j := by
  by_cases h : j = u.cell
  · rw [if_pos h, h, findRec_cons_self]
  · rw [if_neg h, findRec_cons_ne u _ (fun hh => h hh.symm),
      findRec_filter_ne l u.cell h]

/-- Members of the erasure of an entry, under pairwise-distinct cells,
have cells different from the erased entry's. -/
theorem mem_erase_cells_ne {l : List Entry}
    (hpw : l.Pairwise fun a b => a.cell ≠ b.cell) {m x : Entry} (hm : m ∈ l)
    (hx : x ∈ l.erase m) : x.cell ≠ m.cell := by
  induction l with
  | nil => simp at hx
  | cons a l ih =>
    rw [List.erase_cons] at hx
    rcases List.pairwise_cons.mp hpw with ⟨ha, hl⟩
    by_cases ham : a = m
    · rw [if_pos (by simp [ham])] at hx
      intro hcell
      have := ha x hx
      rw [ham] at this
      exact this hcell.symm
    · rw [if_neg (by simp [ham])] at hx
      have hml : m ∈ l := by
        rcases List.mem_cons.mp hm with hma | hml
        · exact absurd hma.symm ham
        · exact hml
      rcases List.mem_cons.mp hx with hxa | hxl
      · subst hxa
        exact ha m hml
      · exact ih hl hml hxl

/-- Generic preservation of a predicate by a left fold. -/
theorem foldl_inv {α β : Type _} (P : β → Prop) {f : β → α → β} :
    ∀ (l : List α) (b : β), P b → (∀ x ∈ l, ∀ s, P s → P (f s x)) →
      P (l.foldl f b)
  | [], _, hb, _ => hb
  | x :: xs, b, hb, hstep =>
    foldl_inv P xs (f b x) (hstep x (by simp) b hb)
      (fun y hy s hs => hstep y (by simp [hy]) s hs)

/-!
## Further exact-arithmetic order lemmas
-/

/-- Zero is nonnegative. -/
theorem Q2.nonneg_zero : Q2.zero.nonneg := by
  rw [Q2.nonneg_iff, Q2.val_zero]

/-- Sums of nonnegative costs are nonnegative. -/
theorem Q2.nonneg_add {x y : Q2} (hx : x.nonneg) (hy : y.nonneg) :
    (x.add y).nonneg := by
  rw [Q2.nonneg_iff] at hx hy ⊢
  rw [Q2.val_add]
  linarith

/-- Adding a nonnegative cost does not decrease a cost. -/
theorem Q2.le_add_nonneg (x : Q2) {y : Q2} (hy : y.nonneg) :
    x.le (x.add y) := by
  rw [Q2.nonneg_iff] at hy
  rw [Q2.le_iff, Q2.val_add]
  linarith

/-- A nonnegative cost is not below zero. -/
theorem Q2.not_lt_zero {x : Q2} (hx : x.nonneg) : ¬ x.lt Q2.zero := by
  rw [Q2.nonneg_iff] at hx
  rw [Q2.lt_iff, Q2.val_zero]
  linarith

/-!
## The solver invariant

All facts preserved by one iteration of the search, from which the
destination-seeding, impassable-cell, unreachable-cell and monotonicity
properties of the final output rasters follow.
-/

/-- Invariant of the solver state during a run seeded with `seeds`. -/
structure Inv (g : FrictionGrid) (eight : Bool) (seeds : List Dest)
    (st : SState) : Prop where
  recBound : ∀ u ∈ st.recs, u.cell < g.width * g.height
  recPassable : ∀ u ∈ st.recs, (frictionIdx g u.cell).isSome
  recNonneg : ∀ u ∈ st.recs, u.cost.nonneg
  recOrigin : ∀ u ∈ st.recs, isSeedCell g seeds u.cell ∨ hasPassableNbr g eight u.cell
  recUnique : st.recs.Pairwise fun u v => u.cell ≠ v.cell
  seedRec : ∀ d ∈ seeds, findRec st.recs (cellIdx g d) =
    some ⟨cellIdx g d, Q2.zero, d.id, Backstep.dest⟩
  queueFresh : ∀ e ∈ st.queue, e.cell ∉ st.settled ∧
    ∃ bs, findRec st.recs e.cell = some ⟨e.cell, e.cost, e.id, bs⟩
  queueUnique : st.queue.Pairwise fun e f => e.cell ≠ f.cell
  recReached : ∀ u ∈ st.recs, u.cell ∈ st.settled ∨ ∃ e ∈ st.queue, e.cell = u.cell
  backMono : ∀ u ∈ st.recs, ∀ dr dc, u.bs = Backstep.dir dr dc →
    ∃ p, shiftCell g u.cell dr dc = some p ∧ p ∈ st.settled ∧
      ∃ v, findRec st.recs p = some v ∧ v.cost.le u.cost

/-- Nonnegative friction surface (the hypothesis under which the solver's
order-theoretic facts hold; the Friction Surface Builder only produces
strictly positive finite values). -/
def NonnegFriction (g : FrictionGrid) : Prop :=
  ∀ r c f, g.friction r c = some f → 0 ≤ f

/-- The reverse of a connectivity offset is a connectivity offset. -/
theorem offsets_neg_mem (eight : Bool) :
    ∀ o ∈ offsets eight, (-o.1, -o.2.1, o.2.2) ∈ offsets eight := by
  cases eight <;> decide

/-- Unfolding of the improvement test at a recorded cell. -/
theorem improvesB_some {st : SState} {i : Nat} {old : Q2}
    (h : st.cost i = some old) (cand : Q2) :
    improvesB st i cand = decide (cand.lt old) := by
  unfold improvesB
  rw [h]

/-- Record lookup after an update: the new record at the updated cell,
unchanged elsewhere. -/
theorem relaxApply_findRec (st : SState) (i : Nat) (cand : Q2) (cid : Nat)
    (dr dc : Int) (j : Nat) :
    findRec (relaxApply st i cand cid dr dc).recs j =
      if j = i then some ⟨i, cand, cid, Backstep.dir dr dc⟩
      else findRec st.recs j :=
  findRec_update st.recs ⟨i, cand, cid, Backstep.dir dr dc⟩ j

/-- The update step preserves the solver invariant. -/
theorem inv_relaxApply {g : FrictionGrid} {eight : Bool} {seeds : List Dest}
    {st : SState} (hInv : Inv g eight seeds st)
    {i : Nat} (hib : i < g.width * g.height) (hins : i ∉ st.settled)
    (hifr : (frictionIdx g i).isSome)
    {cand : Q2} (hcn : cand.nonneg)
    (himpr : improvesB st i cand = true)
    {dr dc : Int} {mcell : Nat}
    (hoff : ∃ diag, (dr, dc, diag) ∈ offsets eight)
    (hshift : shiftCell g i dr dc = some mcell)
    (hmset : mcell ∈ st.settled)
    {vm : CellRec} (hvm : findRec st.recs mcell = some vm)
    (hvmle : vm.cost.le cand) (cid : Nat) :
    Inv g eight seeds (relaxApply st i cand cid dr dc) := by
  have hvmem : vm ∈ st.recs := (findRec_mem hvm).1
  have hmne : mcell ≠ i := fun h => hins (h ▸ hmset)
  have hmempas : (frictionIdx g mcell).isSome := by
    have := hInv.recPassable vm hvmem
    rwa [(findRec_mem hvm).2] at this
  have hrecmem : ∀ u ∈ (relaxApply st i cand cid dr dc).recs,
      u = ⟨i, cand, cid, Backstep.dir dr dc⟩ ∨ (u ∈ st.recs ∧ u.cell ≠ i) := by
    intro u hu
    rcases List.mem_cons.mp hu with h | h
    · exact Or.inl h
    · refine Or.inr ⟨List.mem_of_mem_filter h, ?_⟩
      have := List.of_mem_filter h
      simpa using this
  have hqmem : ∀ e ∈ (relaxApply st i cand cid dr dc).queue,
      e = ⟨cand, cid, i⟩ ∨ (e ∈ st.queue ∧ e.cell ≠ i) := by
    intro e he
    rcases List.mem_cons.mp he with h | h
    · exact Or.inl h
    · refine Or.inr ⟨List.mem_of_mem_filter h, ?_⟩
      have := List.of_mem_filter h
      simpa using this
  refine ⟨?_, ?_, ?_, ?_, ?_, ?_, ?_, ?_, ?_, ?_⟩
  · -- recBound
    intro u hu
    rcases hrecmem u hu with rfl | ⟨h, _⟩
    · exact hib
    · exact hInv.recBound u h
  · -- recPassable
    intro u hu
    rcases hrecmem u hu with rfl | ⟨h, _⟩
    · exact hifr
    · exact hInv.recPassable u h
  · -- recNonneg
    intro u hu
    rcases hrecmem u hu with rfl | ⟨h, _⟩
    · exact hcn
    · exact hInv.recNonneg u h
  · -- recOrigin
    intro u hu
    rcases hrecmem u hu with rfl | ⟨h, _⟩
    · rcases hoff with ⟨diag, hdiag⟩
      refine Or.inr ⟨(dr, dc, diag), hdiag, ?_⟩
      unfold passableShift
      rw [hshift]
      exact hmempas
    · exact hInv.recOrigin u h
  · -- recUnique
    refine List.Pairwise.cons ?_ (hInv.recUnique.filter _)
    intro v hv
    have := List.of_mem_filter hv
    simp only [Bool.not_eq_true', beq_eq_false_iff_ne, ne_eq] at this
    exact fun hh => this hh.symm
  · -- seedRec
    intro d hd
    by_cases hdi : cellIdx g d = i
    · exfalso
      have hzero : st.cost (cellIdx g d) = some Q2.zero := by
        unfold SState.cost
        rw [hInv.seedRec d hd]
        rfl
      rw [hdi] at hzero
      rw [improvesB_some hzero] at himpr
      exact Q2.not_lt_zero hcn (of_decide_eq_true himpr)
    · rw [relaxApply_findRec, if_neg hdi]
      exact hInv.seedRec d hd
  · -- queueFresh
    intro e he
    rcases hqmem e he with rfl | ⟨h, hne⟩
    · refine ⟨hins, Backstep.dir dr dc, ?_⟩
      rw [relaxApply_findRec, if_pos rfl]
    · rcases hInv.queueFresh e h with ⟨hset, bs, hrec⟩
      refine ⟨hset, bs, ?_⟩
      rw [relaxApply_findRec, if_neg hne]
      exact hrec
  · -- queueUnique
    refine List.Pairwise.cons ?_ (hInv.queueUnique.filter _)
    intro f hf
    have := List.of_mem_filter hf
    simp only [Bool.not_eq_true', beq_eq_false_iff_ne, ne_eq] at this
    exact fun hh => this hh.symm
  · -- recReached
    intro u hu
    rcases hrecmem u hu with rfl | ⟨h, hne⟩
    · exact Or.inr ⟨⟨cand, cid, i⟩, List.mem_cons_self _ _, rfl⟩
    · rcases hInv.recReached u h with hset | ⟨e, he, hcell⟩
      · exact Or.inl hset
      · refine Or.inr ⟨e, ?_, hcell⟩
        refine List.mem_cons_of_mem _ (List.mem_filter.mpr ⟨he, ?_⟩)
        simp [hcell, hne]
  · -- backMono
    intro u hu dr' dc' hbs
    rcases hrecmem u hu with rfl | ⟨h, hne⟩
    · simp only at hbs
      cases hbs
      refine ⟨mcell, hshift, hmset, vm, ?_, ?_⟩
      · rw [relaxApply_findRec, if_neg hmne]
        exact hvm
      · exact hvmle
    · rcases hInv.backMono u h dr' dc' hbs with ⟨p, hp, hpset, v, hv, hle⟩
      have hpne : p ≠ i := fun hh => hins (hh ▸ hpset)
      refine ⟨p, hp, hpset, v, ?_, hle⟩
      rw [relaxApply_findRec, if_neg hpne]
      exact hv

/-- Relaxing one in-bounds neighbor preserves the invariant, the settled
set, and the record of the settled predecessor. -/
theorem inv_relaxTarget {g : FrictionGrid} {eight : Bool} {seeds : List Dest}
    {st : SState} (hInv : Inv g eight seeds st)
    {i : Nat} (hib : i < g.width * g.height) (hifr : (frictionIdx g i).isSome)
    {cf nf : ℤ} (hcf0 : 0 ≤ cf) (hnf0 : 0 ≤ nf)
    {o : Int × Int × Bool}
    (hoff : ∃ diag, (-o.1, -o.2.1, diag) ∈ offsets eight)
    {mcell : Nat} (hshift : shiftCell g i (-o.1) (-o.2.1) = some mcell)
    (hmset : mcell ∈ st.settled)
    {vm : CellRec} (hvm : findRec st.recs mcell = some vm) (cid : Nat) :
    Inv g eight seeds (relaxTarget st vm.cost cf cid o i nf) ∧
      (relaxTarget st vm.cost cf cid o i nf).settled = st.settled ∧
      findRec (relaxTarget st vm.cost cf cid o i nf).recs mcell = some vm := by
  unfold relaxTarget
  by_cases hset : i ∈ st.settled
  · rw [if_pos hset]
    exact ⟨hInv, rfl, hvm⟩
  · rw [if_neg hset]
    by_cases himp : improvesB st i (candidateCost vm.cost cf nf o.2.2) = true
    · rw [if_pos himp]
      have hw : (stepWeight cf nf o.2.2).nonneg := Q2.stepWeight_nonneg hcf0 hnf0 _
      have hvnn : vm.cost.nonneg := hInv.recNonneg vm (findRec_mem hvm).1
      have hcn : (candidateCost vm.cost cf nf o.2.2).nonneg := Q2.nonneg_add hvnn hw
      have hvmle : vm.cost.le (candidateCost vm.cost cf nf o.2.2) :=
        Q2.le_add_nonneg vm.cost hw
      have hmne : mcell ≠ i := fun h => hset (h ▸ hmset)
      refine ⟨inv_relaxApply hInv hib hset hifr hcn himp hoff hshift hmset hvm
        hvmle cid, rfl, ?_⟩
      rw [relaxApply_findRec, if_neg hmne]
      exact hvm
    · rw [if_neg himp]
      exact ⟨hInv, rfl, hvm⟩

/-- Relaxing one neighbor offset preserves the invariant, the settled set
and the record of the settled predecessor. -/
theorem inv_relaxOne {g : FrictionGrid} {eight : Bool} {seeds : List Dest}
    {st : SState} (Hf : NonnegFriction g) (hInv : Inv g eight seeds st)
    {mcell : Nat} (hmb : mcell < g.width * g.height)
    (hmset : mcell ∈ st.settled)
    {vm : CellRec} (hvm : findRec st.recs mcell = some vm)
    {cf : ℤ} (hcf : frictionIdx g mcell = some cf)
    {o : Int × Int × Bool} (ho : o ∈ offsets eight) (cid : Nat) :
    Inv g eight seeds
        (relaxOne g cf vm.cost cid (mcell / g.width) (mcell % g.width) st o) ∧
      (relaxOne g cf vm.cost cid (mcell / g.width) (mcell % g.width) st o).settled =
        st.settled ∧
      findRec
        (relaxOne g cf vm.cost cid (mcell / g.width) (mcell % g.width) st o).recs
        mcell = some vm := by
  unfold relaxOne
  by_cases hb : 0 ≤ ((mcell / g.width : Nat) : Int) + o.1 ∧
      ((mcell / g.width : Nat) : Int) + o.1 < (g.height : Int) ∧
      0 ≤ ((mcell % g.width : Nat) : Int) + o.2.1 ∧
      ((mcell % g.width : Nat) : Int) + o.2.1 < (g.width : Int)
  swap
  · rw [if_neg hb]
    exact ⟨hInv, rfl, hvm⟩
  rw [if_pos hb]
  rcases hb with ⟨h1, h2, h3, h4⟩
  cases hfr : g.friction (((mcell / g.width : Nat) : Int) + o.1).toNat
      (((mcell % g.width : Nat) : Int) + o.2.1).toNat with
  | none => exact ⟨hInv, rfl, hvm⟩
  | some nf =>
    set r := mcell / g.width with hreq
    set c := mcell % g.width with hceq
    have hrlt : r < g.height := by rw [hreq]; exact row_lt_of_lt hmb
    have hw : 0 < g.width := by omega
    have hclt : c < g.width := by rw [hceq]; exact col_lt_of_pos hw
    have hrecomp : r * g.width + c = mcell := by
      rw [hreq, hceq]; exact decode_recompose mcell
    clear_value r c
    clear hreq hceq
    have hrn : ((r : Int) + o.1).toNat < g.height := by omega
    have hcn : ((c : Int) + o.2.1).toNat < g.width := by omega
    have hib : ((r : Int) + o.1).toNat * g.width + ((c : Int) + o.2.1).toNat <
        g.width * g.height := encode_lt hrn hcn
    have hdr : (((r : Int) + o.1).toNat * g.width + ((c : Int) + o.2.1).toNat) /
        g.width = ((r : Int) + o.1).toNat := decode_row _ _ hcn
    have hdc : (((r : Int) + o.1).toNat * g.width + ((c : Int) + o.2.1).toNat) %
        g.width = ((c : Int) + o.2.1).toNat := decode_col _ _ hcn
    have hifr : (frictionIdx g
        (((r : Int) + o.1).toNat * g.width + ((c : Int) + o.2.1).toNat)).isSome := by
      unfold frictionIdx
      rw [hdr, hdc, hfr]
      rfl
    have hshift : shiftCell g
        (((r : Int) + o.1).toNat * g.width + ((c : Int) + o.2.1).toNat)
        (-o.1) (-o.2.1) = some mcell := by
      unfold shiftCell
      rw [hdr, hdc]
      have hr0 : (0 : Int) ≤ ((((r : Int) + o.1).toNat : Int)) + -o.1 := by omega
      have hrh : ((((r : Int) + o.1).toNat : Int)) + -o.1 < (g.height : Int) := by
        omega
      have hc0 : (0 : Int) ≤ ((((c : Int) + o.2.1).toNat : Int)) + -o.2.1 := by
        omega
      have hcw : ((((c : Int) + o.2.1).toNat : Int)) + -o.2.1 < (g.width : Int) := by
        omega
      rw [if_pos ⟨hr0, hrh, hc0, hcw⟩]
      have e1 : (((((r : Int) + o.1).toNat : Int)) + -o.1).toNat = r := by omega
      have e2 : (((((c : Int) + o.2.1).toNat : Int)) + -o.2.1).toNat = c := by
        omega
      rw [e1, e2, hrecomp]
    have hcf0 : 0 ≤ cf := by
      unfold frictionIdx at hcf
      exact Hf _ _ _ hcf
    have hnf0 : 0 ≤ nf := Hf _ _ _ hfr
    have hoff : ∃ diag, (-o.1, -o.2.1, diag) ∈ offsets eight :=
      ⟨o.2.2, offsets_neg_mem eight o ho⟩
    exact inv_relaxTarget hInv hib hifr hcf0 hnf0 hoff hshift hmset hvm cid

/-- Expanding a settled cell preserves the solver invariant. -/
theorem inv_expandCell {g : FrictionGrid} {eight : Bool} {seeds : List Dest}
    {st : SState} (Hf : NonnegFriction g) (hInv : Inv g eight seeds st)
    {mcell : Nat} (hmb : mcell < g.width * g.height)
    (hmset : mcell ∈ st.settled)
    {vm : CellRec} (hvm : findRec st.recs mcell = some vm) (cid : Nat) :
    Inv g eight seeds (expandCell g eight st mcell cid vm.cost) := by
  unfold expandCell
  cases hfr : g.friction (mcell / g.width) (mcell % g.width) with
  | none => exact hInv
  | some cf =>
    have hcf : frictionIdx g mcell = some cf := hfr
    have hP : ∀ s : SState,
        (Inv g eight seeds s ∧ mcell ∈ s.settled ∧ findRec s.recs mcell = some vm) →
        ∀ o ∈ offsets eight,
        (Inv g eight seeds
            (relaxOne g cf vm.cost cid (mcell / g.width) (mcell % g.width) s o) ∧
          mcell ∈ (relaxOne g cf vm.cost cid (mcell / g.width) (mcell % g.width) s o).settled ∧
          findRec (relaxOne g cf vm.cost cid (mcell / g.width) (mcell % g.width) s o).recs
            mcell = some vm) := by
      intro s hs o ho
      rcases hs with ⟨hsInv, hsset, hsrec⟩
      rcases inv_relaxOne Hf hsInv hmb hsset hsrec hcf ho cid with ⟨h1, h2, h3⟩
      exact ⟨h1, h2 ▸ hsset, h3⟩
    have := foldl_inv (fun s =>
        Inv g eight seeds s ∧ mcell ∈ s.settled ∧ findRec s.recs mcell = some vm)
      (offsets eight) st ⟨hInv, hmset, hvm⟩
      (fun o ho s hs => hP s hs o ho)
    exact this.1

/-- One iteration of the search preserves the solver invariant. -/
theorem inv_loopStep {g : FrictionGrid} {eight : Bool} {seeds : List Dest}
    {st : SState} (Hf : NonnegFriction g) (hInv : Inv g eight seeds st) :
    Inv g eight seeds (loopStep g eight st) := by
  unfold loopStep
  cases hq : st.queue with
  | nil => exact hInv
  | cons e es =>
    have hm : minEntry e es ∈ st.queue := by rw [hq]; exact minEntry_mem e es
    rcases hInv.queueFresh _ hm with ⟨hmns, bs, hmrec⟩
    have hmb : (minEntry e es).cell < g.width * g.height := by
      have := hInv.recBound _ (findRec_mem hmrec).1
      simpa using this
    have hInv1 : Inv g eight seeds
        { st with settled := (minEntry e es).cell :: st.settled,
                  queue := (e :: es).erase (minEntry e es) } := by
      refine ⟨hInv.recBound, hInv.recPassable, hInv.recNonneg, hInv.recOrigin,
        hInv.recUnique, hInv.seedRec, ?_, ?_, ?_, ?_⟩
      · -- queueFresh
        intro f hf
        have hfq : f ∈ st.queue := by
          rw [hq]
          exact (e :: es).erase_sublist (minEntry e es) |>.mem hf
        rcases hInv.queueFresh f hfq with ⟨hfs, bs', hrec⟩
        refine ⟨?_, bs', hrec⟩
        intro hmem
        rcases List.mem_cons.mp hmem with hcell | hcell
        · have hpw : st.queue.Pairwise fun a b => a.cell ≠ b.cell := hInv.queueUnique
          rw [hq] at hpw
          exact mem_erase_cells_ne hpw (by rw [← hq]; exact hm) hf hcell
        · exact hfs hcell
      · -- queueUnique
        exact List.Pairwise.sublist ((e :: es).erase_sublist (minEntry e es))
          (by rw [← hq]; exact hInv.queueUnique)
      · -- recReached
        intro u hu
        rcases hInv.recReached u hu with hset | ⟨f, hf, hcell⟩
        · exact Or.inl (List.mem_cons_of_mem _ hset)
        · by_cases hfm : f.cell = (minEntry e es).cell
          · exact Or.inl (by rw [← hcell, hfm]; exact List.mem_cons_self _ _)
          · refine Or.inr ⟨f, ?_, hcell⟩
            have hfm2 : f ≠ minEntry e es := fun hh => hfm (by rw [hh])
            rw [List.mem_erase_of_ne hfm2, ← hq]
            exact hf
      · -- backMono
        intro u hu dr dc hbs
        rcases hInv.backMono u hu dr dc hbs with ⟨p, hp, hpset, v, hv, hle⟩
        exact ⟨p, hp, List.mem_cons_of_mem _ hpset, v, hv, hle⟩
    have hmset1 : (minEntry e es).cell ∈
        ({ st with settled := (minEntry e es).cell :: st.settled,
                   queue := (e :: es).erase (minEntry e es) } : SState).settled :=
      List.mem_cons_self _ _
    have hvm1 : findRec
        ({ st with settled := (minEntry e es).cell :: st.settled,
                   queue := (e :: es).erase (minEntry e es) } : SState).recs
        (minEntry e es).cell =
        some ⟨(minEntry e es).cell, (minEntry e es).cost, (minEntry e es).id, bs⟩ :=
      hmrec
    exact inv_expandCell Hf hInv1 hmb hmset1 hvm1 (minEntry e es).id

/-- The search loop preserves the solver invariant. -/
theorem inv_loop {g : FrictionGrid} {eight : Bool} {seeds : List Dest}
    (Hf : NonnegFriction g) :
    ∀ (fuel : Nat) (st : SState), Inv g eight seeds st →
      Inv g eight seeds (loop g eight fuel st)
  | 0, _, hInv => hInv
  | fuel + 1, st, hInv => by
    rw [loop]
    by_cases hq : st.queue.isEmpty
    · rw [if_pos hq]; exact hInv
    · rw [if_neg hq]
      exact inv_loop Hf fuel _ (inv_loopStep Hf hInv)

/-!
## Properties of the seed set
-/

/-- Deduplicated destinations come from the input list. -/
theorem mem_dedupDest : ∀ {l : List Dest} {seen : List (Nat × Nat)} {x : Dest},
    x ∈ dedupDest l seen → x ∈ l := by
  intro l
  induction l with
  | nil => intro seen x hx; simp [dedupDest] at hx
  | cons d ds ih =>
    intro seen x hx
    rw [dedupDest] at hx
    by_cases hd : (d.row, d.col) ∈ seen
    · rw [if_pos hd] at hx
      exact List.mem_cons_of_mem _ (ih hx)
    · rw [if_neg hd] at hx
      rcases List.mem_cons.mp hx with h | h
      · exact h ▸ List.mem_cons_self _ _
      · exact List.mem_cons_of_mem _ (ih h)

/-- Deduplicated destinations avoid the accumulated cells. -/
theorem dedupDest_not_seen : ∀ {l : List Dest} {seen : List (Nat × Nat)}
    {x : Dest}, x ∈ dedupDest l seen → (x.row, x.col) ∉ seen := by
  intro l
  induction l with
  | nil => intro seen x hx; simp [dedupDest] at hx
  | cons d ds ih =>
    intro seen x hx
    rw [dedupDest] at hx
    by_cases hd : (d.row, d.col) ∈ seen
    · rw [if_pos hd] at hx
      exact ih hx
    · rw [if_neg hd] at hx
      rcases List.mem_cons.mp hx with h | h
      · rw [h]; exact hd
      · have := ih h
        intro hc
        exact this (List.mem_cons_of_mem _ hc)

/-- Deduplicated destinations carry pairwise-distinct (row, column). -/
theorem dedupDest_pairwise : ∀ (l : List Dest) (seen : List (Nat × Nat)),
    (dedupDest l seen).Pairwise fun a b => (a.row, a.col) ≠ (b.row, b.col) := by
  intro l
  induction l with
  | nil => intro seen; simp [dedupDest]
  | cons d ds ih =>
    intro seen
    rw [dedupDest]
    by_cases hd : (d.row, d.col) ∈ seen
    · rw [if_pos hd]; exact ih seen
    · rw [if_neg hd]
      refine List.Pairwise.cons ?_ (ih _)
      intro x hx
      have := dedupDest_not_seen hx
      intro hc
      exact this (hc ▸ List.mem_cons_self _ _)

/-- Every seed is an in-bounds, non-impassable destination of the input. -/
theorem mem_seedList {g : FrictionGrid} {dests : List Dest} {d : Dest}
    (hd : d ∈ seedList g dests) :
    d ∈ dests ∧ inBoundsDest g d ∧ passableDest g d := by
  have h1 := mem_dedupDest hd
  rcases List.mem_filter.mp h1 with ⟨h2, h3⟩
  simp only [Bool.and_eq_true, decide_eq_true_eq] at h3
  exact ⟨h2, h3.1, h3.2⟩

/-- Seeds have pairwise-distinct (row, column). -/
theorem seedList_pairwise (g : FrictionGrid) (dests : List Dest) :
    (seedList g dests).Pairwise fun a b => (a.row, a.col) ≠ (b.row, b.col) :=
  dedupDest_pairwise _ []

/-- Lookup in the seeded record list returns each seed's own record. -/
theorem findRec_seedMap {g : FrictionGrid} :
    ∀ {seeds : List Dest}, (∀ d ∈ seeds, inBoundsDest g d) →
    (seeds.Pairwise fun a b => (a.row, a.col) ≠ (b.row, b.col)) →
    ∀ d ∈ seeds,
      findRec (seeds.map fun s => ⟨cellIdx g s, Q2.zero, s.id, Backstep.dest⟩)
        (cellIdx g d) = some ⟨cellIdx g d, Q2.zero, d.id, Backstep.dest⟩ := by
  intro seeds
  induction seeds with
  | nil => intro _ _ d hd; simp at hd
  | cons d0 ds ih =>
    intro hval hpw d hd
    rcases List.mem_cons.mp hd with rfl | hds
    · unfold findRec
      rw [List.map_cons, List.find?_cons_of_pos _ (by simp)]
    · have hne : cellIdx g d0 ≠ cellIdx g d := by
        intro he
        have := cellIdx_inj (hval d0 (List.mem_cons_self _ _))
          (hval d (List.mem_cons_of_mem _ hds)) he
        exact (List.pairwise_cons.mp hpw).1 d hds this
      unfold findRec
      rw [List.map_cons, List.find?_cons_of_neg _ (by simp [hne])]
      exact ih (fun x hx => hval x (List.mem_cons_of_mem _ hx))
        (List.pairwise_cons.mp hpw).2 d hds

/-- The seeded initial state satisfies the solver invariant. -/
theorem inv_seedState (g : FrictionGrid) (eight : Bool) (dests : List Dest) :
    Inv g eight (seedList g dests) (seedState g (seedList g dests)) := by
  have hval : ∀ d ∈ seedList g dests, inBoundsDest g d :=
    fun d hd => (mem_seedList hd).2.1
  have hpas : ∀ d ∈ seedList g dests, passableDest g d :=
    fun d hd => (mem_seedList hd).2.2
  have hpw := seedList_pairwise g dests
  have hidx : ∀ d ∈ seedList g dests, cellIdx g d < g.width * g.height :=
    fun d hd => encode_lt (hval d hd).1 (hval d hd).2
  have hfr : ∀ d ∈ seedList g dests, (frictionIdx g (cellIdx g d)).isSome := by
    intro d hd
    unfold frictionIdx cellIdx
    rw [decode_row _ _ (hval d hd).2, decode_col _ _ (hval d hd).2]
    exact hpas d hd
  have hrec : ∀ u ∈ (seedState g (seedList g dests)).recs,
      ∃ d ∈ seedList g dests, u = ⟨cellIdx g d, Q2.zero, d.id, Backstep.dest⟩ := by
    intro u hu
    rcases List.mem_map.mp hu with ⟨d, hd, rfl⟩
    exact ⟨d, hd, rfl⟩
  refine ⟨?_, ?_, ?_, ?_, ?_, ?_, ?_, ?_, ?_, ?_⟩
  · intro u hu
    rcases hrec u hu with ⟨d, hd, rfl⟩
    exact hidx d hd
  · intro u hu
    rcases hrec u hu with ⟨d, hd, rfl⟩
    exact hfr d hd
  · intro u hu
    rcases hrec u hu with ⟨d, hd, rfl⟩
    exact Q2.nonneg_zero
  · intro u hu
    rcases hrec u hu with ⟨d, hd, rfl⟩
    exact Or.inl ⟨d, hd, rfl⟩
  · refine List.pairwise_map.mpr ?_
    refine hpw.imp_of_mem ?_
    intro a b ha hb hne he
    exact hne (cellIdx_inj (hval a ha) (hval b hb) he)
  · intro d hd
    exact findRec_seedMap hval hpw d hd
  · intro e he
    rcases List.mem_map.mp he with ⟨d, hd, rfl⟩
    refine ⟨by simp [seedState], Backstep.dest, ?_⟩
    exact findRec_seedMap hval hpw d hd
  · refine List.pairwise_map.mpr ?_
    refine hpw.imp_of_mem ?_
    intro a b ha hb hne he
    exact hne (cellIdx_inj (hval a ha) (hval b hb) he)
  · intro u hu
    rcases hrec u hu with ⟨d, hd, rfl⟩
    refine Or.inr ⟨⟨Q2.zero, d.id, cellIdx g d⟩, ?_, rfl⟩
    exact List.mem_map.mpr ⟨d, hd, rfl⟩
  · intro u hu dr dc hbs
    rcases hrec u hu with ⟨d, hd, rfl⟩
    simp at hbs

/-- Any completed solver run satisfies the invariant for its seed set. -/
theorem inv_accessRun {g : FrictionGrid} {eight : Bool} {dests : List Dest}
    {st : SState} (Hf : NonnegFriction g)
    (h : accessRun g eight dests = some st) :
    Inv g eight (seedList g dests) st := by
  unfold accessRun at h
  by_cases he : (seedList g dests).isEmpty
  · rw [if_pos he] at h; cases h
  · rw [if_neg he] at h
    cases h
    exact inv_loop Hf _ _ (inv_seedState g eight dests)

/-!
## Order independence of the run

Two solver states with permuted (but per-cell unique) records and queues
and identical settled sets evolve to identical output rasters: the run's
outcome does not depend on the enumeration order of the destinations.
-/

/-- Cell records with pairwise-distinct cells are determined by their
cell. -/
theorem rec_unique_eq : ∀ {l : List CellRec},
    (l.Pairwise fun u v => u.cell ≠ v.cell) →
    ∀ {u v : CellRec}, u ∈ l → v ∈ l → u.cell = v.cell → u = v := by
  intro l
  induction l with
  | nil => intro _ u v hu; simp at hu
  | cons a tl ih =>
    intro hpw u v hu hv he
    rcases List.pairwise_cons.mp hpw with ⟨ha, htl⟩
    rcases List.mem_cons.mp hu with rfl | hu2
    · rcases List.mem_cons.mp hv with rfl | hv2
      · rfl
      · exact absurd he (ha v hv2)
    · rcases List.mem_cons.mp hv with rfl | hv2
      · exact absurd he.symm (ha u hu2)
      · exact ih htl hu2 hv2 he

/-- Record lookup is invariant under permutation of per-cell-unique
record lists. -/
theorem findRec_perm {l l' : List CellRec} (hp : l.Perm l')
    (hu : l.Pairwise fun u v => u.cell ≠ v.cell) (i : Nat) :
    findRec l i = findRec l' i := by
  cases h : findRec l i with
  | none =>
    unfold findRec at h ⊢
    rw [List.find?_eq_none] at h
    symm
    rw [List.find?_eq_none]
    intro x hx
    exact h x (hp.mem_iff.mpr hx)
  | some u =>
    rcases findRec_mem h with ⟨hum, huc⟩
    have hsome : (findRec l' i).isSome := by
      unfold findRec
      rw [List.find?_isSome]
      exact ⟨u, hp.mem_iff.mp hum, by simp [huc]⟩
    rcases Option.isSome_iff_exists.mp hsome with ⟨v, hv⟩
    rcases findRec_mem hv with ⟨hvm, hvc⟩
    have huv : u = v := rec_unique_eq hu hum (hp.mem_iff.mpr hvm) (by rw [huc, hvc])
    rw [hv, huv]

/-- Two solver states equal up to permutation of their records and
queues. -/
def SEquiv (st st' : SState) : Prop :=
  st.recs.Perm st'.recs ∧ (st.recs.Pairwise fun u v => u.cell ≠ v.cell) ∧
    st.settled = st'.settled ∧ st.queue.Perm st'.queue

/-- Raster views agree on equivalent states. -/
theorem SEquiv.cost_eq {st st' : SState} (h : SEquiv st st') (i : Nat) :
    st.cost i = st'.cost i := by
  unfold SState.cost
  rw [findRec_perm h.1 h.2.1 i]

/-- The update step preserves state equivalence. -/
theorem sequiv_relaxApply {st st' : SState} (h : SEquiv st st')
    (i : Nat) (cand : Q2) (cid : Nat) (dr dc : Int) :
    SEquiv (relaxApply st i cand cid dr dc) (relaxApply st' i cand cid dr dc) := by
  rcases h with ⟨hrec, hu, hset, hq⟩
  refine ⟨?_, ?_, ?_, ?_⟩
  · exact List.Perm.cons _ (hrec.filter _)
  · refine List.Pairwise.cons ?_ (hu.filter _)
    intro v hv
    have := List.of_mem_filter hv
    simp only [Bool.not_eq_true', beq_eq_false_iff_ne, ne_eq] at this
    exact fun hh => this hh.symm
  · simpa [relaxApply] using hset
  · exact List.Perm.cons _ (hq.filter _)

/-- Relaxing a neighbor cell preserves state equivalence. -/
theorem sequiv_relaxTarget {st st' : SState} (h : SEquiv st st')
    (cq : Q2) (cf : ℤ) (cid : Nat) (o : Int × Int × Bool) (i : Nat) (nf : ℤ) :
    SEquiv (relaxTarget st cq cf cid o i nf) (relaxTarget st' cq cf cid o i nf) := by
  unfold relaxTarget
  have hset : st.settled = st'.settled := h.2.2.1
  have hcost : st.cost i = st'.cost i := h.cost_eq i
  have himp : improvesB st i (candidateCost cq cf nf o.2.2) =
      improvesB st' i (candidateCost cq cf nf o.2.2) := by
    unfold improvesB
    rw [hcost]
  rw [← hset, ← himp]
  by_cases hs : i ∈ st.settled
  · rw [if_pos hs, if_pos hs]; exact h
  · rw [if_neg hs, if_neg hs]
    by_cases hi : improvesB st i (candidateCost cq cf nf o.2.2) = true
    · rw [if_pos hi, if_pos hi]
      exact sequiv_relaxApply h _ _ _ _ _
    · rw [if_neg hi, if_neg hi]; exact h

/-- Relaxing one neighbor offset preserves state equivalence. -/
theorem sequiv_relaxOne {g : FrictionGrid} {st st' : SState} (h : SEquiv st st')
    (cf : ℤ) (cq : Q2) (cid : Nat) (r c : Nat) (o : Int × Int × Bool) :
    SEquiv (relaxOne g cf cq cid r c st o) (relaxOne g cf cq cid r c st' o) := by
  unfold relaxOne
  by_cases hb : 0 ≤ (r : Int) + o.1 ∧ (r : Int) + o.1 < (g.height : Int) ∧
      0 ≤ (c : Int) + o.2.1 ∧ (c : Int) + o.2.1 < (g.width : Int)
  · rw [if_pos hb, if_pos hb]
    cases hfr : g.friction ((r : Int) + o.1).toNat ((c : Int) + o.2.1).toNat with
    | none => exact h
    | some nf => exact sequiv_relaxTarget h _ _ _ _ _ _
  · rw [if_neg hb, if_neg hb]; exact h

/-- Expanding a cell preserves state equivalence. -/
theorem sequiv_expandCell {g : FrictionGrid} {eight : Bool} {st st' : SState}
    (h : SEquiv st st') (i cid : Nat) (cq : Q2) :
    SEquiv (expandCell g eight st i cid cq) (expandCell g eight st' i cid cq) := by
  unfold expandCell
  cases hfr : g.friction (i / g.width) (i % g.width) with
  | none => exact h
  | some cf =>
    have : ∀ (l : List (Int × Int × Bool)) (s s' : SState), SEquiv s s' →
        SEquiv (l.foldl (relaxOne g cf cq cid (i / g.width) (i % g.width)) s)
          (l.foldl (relaxOne g cf cq cid (i / g.width) (i % g.width)) s') := by
      intro l
      induction l with
      | nil => intro s s' hs; exact hs
      | cons o os ih =>
        intro s s' hs
        exact ih _ _ (sequiv_relaxOne hs _ _ _ _ _ _)
    exact this _ _ _ h

/-- Unfolding of one search iteration on an empty queue. -/
theorem loopStep_nil {g : FrictionGrid} {eight : Bool} {st : SState}
    (h : st.queue = []) : loopStep g eight st = st := by
  unfold loopStep
  rw [h]

/-- Unfolding of one search iteration on a nonempty queue. -/
theorem loopStep_cons {g : FrictionGrid} {eight : Bool} {st : SState}
    {e : Entry} {es : List Entry} (h : st.queue = e :: es) :
    loopStep g eight st = expandCell g eight
      { st with settled := (minEntry e es).cell :: st.settled,
                queue := (e :: es).erase (minEntry e es) }
      (minEntry e es).cell (minEntry e es).id (minEntry e es).cost := by
  unfold loopStep
  rw [h]

/-- One search iteration preserves state equivalence. -/
theorem sequiv_loopStep {g : FrictionGrid} {eight : Bool} {st st' : SState}
    (h : SEquiv st st') : SEquiv (loopStep g eight st) (loopStep g eight st') := by
  have hq := h.2.2.2
  cases hql : st.queue with
  | nil =>
    have hql' : st'.queue = [] := by
      rw [hql] at hq
      exact hq.symm.eq_nil
    rw [loopStep_nil hql, loopStep_nil hql']
    exact h
  | cons e es =>
    cases hql' : st'.queue with
    | nil =>
      rw [hql, hql'] at hq
      cases hq.eq_nil
    | cons f fs =>
      rw [hql, hql'] at hq
      have hmin : minEntry e es = minEntry f fs := minEntry_eq_of_perm hq
      have hset : st.settled = st'.settled := h.2.2.1
      rw [loopStep_cons hql, loopStep_cons hql', ← hmin]
      apply sequiv_expandCell
      refine ⟨h.1, h.2.1, ?_, ?_⟩
      · simp only []
        rw [hset]
      · simp only []
        exact hq.erase _

/-- The search loop preserves state equivalence. -/
theorem sequiv_loop {g : FrictionGrid} {eight : Bool} :
    ∀ (fuel : Nat) {st st' : SState}, SEquiv st st' →
      SEquiv (loop g eight fuel st) (loop g eight fuel st')
  | 0, _, _, h => h
  | fuel + 1, st, st', h => by
    rw [loop, loop]
    have hq : st.queue.isEmpty = st'.queue.isEmpty := by
      cases hql : st.queue with
      | nil =>
        have hql' : st'.queue = [] := by
          have h3 := h.2.2.2
          rw [hql] at h3
          exact h3.symm.eq_nil
        rw [hql']
      | cons e es =>
        cases hql' : st'.queue with
        | nil =>
          have h3 := h.2.2.2
          rw [hql, hql'] at h3
          cases h3.eq_nil
        | cons f fs => rfl
    rw [← hq]
    by_cases he : st.queue.isEmpty
    · rw [if_pos he, if_pos he]; exact h
    · rw [if_neg he, if_neg he]
      exact sequiv_loop fuel (sequiv_loopStep h)

/-- Raster views of equivalent states agree; the output rasters of a run
are functions of the state equivalence class. -/
theorem sequiv_output {st st' : SState} (h : SEquiv st st') :
    (⟨st.cost, st.near, st.back⟩ : CostResult) =
      ⟨st'.cost, st'.near, st'.back⟩ := by
  have hc : st.cost = st'.cost := by
    funext i
    unfold SState.cost
    rw [findRec_perm h.1 h.2.1 i]
  have hn : st.near = st'.near := by
    funext i
    unfold SState.near
    rw [findRec_perm h.1 h.2.1 i]
  have hb : st.back = st'.back := by
    funext i
    unfold SState.back
    rw [findRec_perm h.1 h.2.1 i]
  rw [hc, hn, hb]

/-- Deduplication is the identity on lists with pairwise-distinct cells
avoiding the accumulated ones. -/
theorem dedupDest_eq_self : ∀ {l : List Dest} {seen : List (Nat × Nat)},
    (∀ x ∈ l, (x.row, x.col) ∉ seen) →
    (l.Pairwise fun a b => (a.row, a.col) ≠ (b.row, b.col)) →
    dedupDest l seen = l := by
  intro l
  induction l with
  | nil => intro seen _ _; rfl
  | cons d ds ih =>
    intro seen hns hpw
    rw [dedupDest, if_neg (hns d (List.mem_cons_self _ _))]
    congr 1
    refine ih ?_ (List.pairwise_cons.mp hpw).2
    intro x hx hmem
    rcases List.mem_cons.mp hmem with hcell | hcell
    · exact (List.pairwise_cons.mp hpw).1 x hx hcell.symm
    · exact hns x (List.mem_cons_of_mem _ hx) hcell

/-- On destination lists with pairwise-distinct cells, the seed set is
just the valid-destinations filter. -/
theorem seedList_eq_filter {g : FrictionGrid} {dests : List Dest}
    (hpw : dests.Pairwise fun a b => (a.row, a.col) ≠ (b.row, b.col)) :
    seedList g dests =
      dests.filter fun d => decide (inBoundsDest g d) && decide (passableDest g d) := by
  unfold seedList
  exact dedupDest_eq_self (by simp) (hpw.filter _)

/-- Permuted queues are simultaneously empty. -/
theorem perm_isEmpty {α : Type _} {l l' : List α} (h : l.Perm l') :
    l.isEmpty = l'.isEmpty := by
  cases hl : l with
  | nil =>
    have : l' = [] := by
      rw [hl] at h
      exact h.symm.eq_nil
    rw [this]
  | cons a tl =>
    cases hl' : l' with
    | nil =>
      rw [hl, hl'] at h
      cases h.eq_nil
    | cons b tl' => rfl

/-- Seeding permuted seed lists (valid destinations, pairwise-distinct
cells) gives equivalent initial states. -/
theorem sequiv_seedState {g : FrictionGrid} {s1 s2 : List Dest}
    (hval : ∀ d ∈ s1, inBoundsDest g d)
    (hpw : s1.Pairwise fun a b => (a.row, a.col) ≠ (b.row, b.col))
    (hp : s1.Perm s2) : SEquiv (seedState g s1) (seedState g s2) := by
  refine ⟨hp.map _, ?_, rfl, hp.map _⟩
  refine List.pairwise_map.mpr ?_
  refine hpw.imp_of_mem ?_
  intro a b ha hb hne he
  exact hne (cellIdx_inj (hval a ha) (hval b hb) he)

/-!
## Bridging lemmas from the solver interface to the run state
-/

/-- A successful solve is a completed run whose rasters are the final
state's views. -/
theorem accessSolve_ok {g : FrictionGrid} {eight : Bool} {dests : List Dest}
    {R : CostResult} (h : accessSolve g eight dests = .ok R) :
    ∃ st, accessRun g eight dests = some st ∧
      R = ⟨st.cost, st.near, st.back⟩ := by
  unfold accessSolve at h
  cases hr : accessRun g eight dests with
  | none => rw [hr] at h; cases h
  | some st => rw [hr] at h; cases h; exact ⟨st, rfl, rfl⟩

/-- A cell without a record carries no data in any of the three output
rasters. -/
theorem findRec_none_outputs {st : SState} {i : Nat}
    (h : findRec st.recs i = none) :
    st.cost i = none ∧ st.near i = none ∧ st.back i = none := by
  unfold SState.cost SState.near SState.back
  rw [h]
  exact ⟨rfl, rfl, rfl⟩

/-- The builder's assigned speed is strictly positive whenever the speed
table is. -/
theorem assignSpeed_pos {tbl : SpeedTable} {bridge : Nat} {water : Bool}
    {net lc : Option Nat} {s : ℚ}
    (hn : ∀ k v, tbl.network k = some v → 0 < v)
    (hl : ∀ k v, tbl.landcover k = some v → 0 < v)
    (hd : 0 < tbl.deflt)
    (h : assignSpeed tbl bridge water net lc = some s) : 0 < s := by
  unfold assignSpeed at h
  by_cases hw : water = true ∧ net ≠ some bridge
  · rw [if_pos hw] at h; cases h
  · rw [if_neg hw] at h
    cases hnet : net.bind tbl.network with
    | some v =>
      rw [hnet] at h
      cases h
      rcases Option.bind_eq_some.mp hnet with ⟨k, _, hk⟩
      exact hn k s hk
    | none =>
      rw [hnet] at h
      cases hlc : lc.bind tbl.landcover with
      | some v =>
        rw [hlc] at h
        cases h
        rcases Option.bind_eq_some.mp hlc with ⟨k, _, hk⟩
        exact hl k s hk
      | none =>
        rw [hlc] at h
        cases h
        exact hd

/-!
## Claims
-/

/-- C2 (counterexample): the claim that the cost-distance computation is
performed in-process without delegating to an external engine is false of
the shipped repository: its installation documents declare the external
tool `grass` as the system dependency that performs the cost distance
analysis. -/
theorem C2_counterexample_external_engine : costDistanceEngine = some "grass" := by
  decide

/-- C2 (amended): the cost-distance analysis of the shipped pipeline is
delegated to GRASS GIS (`grass`), declared as a required external system
dependency; the in-process priority-queue solver modelled in this file is
the specification's redesign of that delegated computation. -/
theorem C2_amended_grass_engine :
    ("grass", "perform a cost distance analysis") ∈ systemDependencies ∧
      costDistanceEngine ≠ none := by
  decide

/-- C3: in every solver run over a nonnegative friction surface, each
destination of the (deduplicated, in-bounds, non-impassable) seed set
receives accumulated cost exactly 0 and its own id in the output cost and
nearest-id rasters. -/
theorem C3_seed_cost_zero_own_id {g : FrictionGrid} {eight : Bool}
    {dests : List Dest} {R : CostResult} (Hf : NonnegFriction g)
    (h : accessSolve g eight dests = .ok R) :
    ∀ d ∈ seedList g dests,
      R.cost (cellIdx g d) = some Q2.zero ∧ R.near (cellIdx g d) = some d.id := by
  rcases accessSolve_ok h with ⟨st, hrun, rfl⟩
  have hInv := inv_accessRun Hf hrun
  intro d hd
  have hs := hInv.seedRec d hd
  constructor
  · show st.cost (cellIdx g d) = some Q2.zero
    unfold SState.cost
    rw [hs]
    rfl
  · show st.near (cellIdx g d) = some d.id
    unfold SState.near
    rw [hs]
    rfl

/-- C5: the solver is deterministic — it is a pure function of its
inputs, and its three output rasters moreover do not depend on the
enumeration order of the destination collection (destinations with
pairwise-distinct cells, as the deduplicated `Destinations` data model
guarantees). -/
theorem C5_deterministic_order_independent {g : FrictionGrid} {eight : Bool}
    {d d' : List Dest} (hperm : d.Perm d')
    (hpw : d.Pairwise fun a b => (a.row, a.col) ≠ (b.row, b.col)) :
    accessSolve g eight d = accessSolve g eight d' := by
  have hpw' : d'.Pairwise fun a b => (a.row, a.col) ≠ (b.row, b.col) :=
    (hperm.pairwise_iff fun h => h.symm).mp hpw
  have h1 := @seedList_eq_filter g d hpw
  have h2 := @seedList_eq_filter g d' hpw'
  have hslp : (seedList g d).Perm (seedList g d') := by
    rw [h1, h2]
    exact hperm.filter _
  have hval : ∀ x ∈ seedList g d, inBoundsDest g x :=
    fun x hx => (mem_seedList hx).2.1
  have hseq : SEquiv (seedState g (seedList g d)) (seedState g (seedList g d')) :=
    sequiv_seedState hval (seedList_pairwise g d) hslp
  have hfin := @sequiv_loop g eight (g.width * g.height + 1) _ _ hseq
  unfold accessSolve
  by_cases he : (seedList g d').isEmpty
  · have hrn : accessRun g eight d = none := by
      unfold accessRun
      rw [if_pos (by rw [perm_isEmpty hslp]; exact he)]
    have hrn' : accessRun g eight d' = none := by
      unfold accessRun
      rw [if_pos he]
    rw [hrn, hrn']
  · have hrs : accessRun g eight d =
        some (loop g eight (g.width * g.height + 1) (seedState g (seedList g d))) := by
      unfold accessRun
      rw [if_neg (by rw [perm_isEmpty hslp]; exact he)]
    have hrs' : accessRun g eight d' =
        some (loop g eight (g.width * g.height + 1) (seedState g (seedList g d'))) := by
      unfold accessRun
      rw [if_neg he]
    rw [hrs, hrs']
    exact congrArg Except.ok (sequiv_output hfin)

/-- C6: every finite friction value produced by the Friction Surface
Builder (from strictly positive speeds and pixel size) is strictly
positive; and in every solver run over a nonnegative friction surface,
the accumulated cost never decreases along a backlink step: the backlink
target of any cell is a settled cell of no greater accumulated cost, so
cost is monotonically non-decreasing along every settled expansion path
from a destination. -/
theorem C6_positive_friction_monotone_cost :
    (∀ (pixel : ℚ) (tbl : SpeedTable) (bridge : Nat) (water : Bool)
        (net lc : Option Nat) (f : ℚ), 0 < pixel →
        (∀ k v, tbl.network k = some v → 0 < v) →
        (∀ k v, tbl.landcover k = some v → 0 < v) → 0 < tbl.deflt →
        buildFriction pixel tbl bridge water net lc = some f → 0 < f) ∧
    (∀ (g : FrictionGrid) (eight : Bool) (dests : List Dest) (R : CostResult)
        (i : Nat) (dr dc : Int), NonnegFriction g →
        accessSolve g eight dests = .ok R →
        R.back i = some (Backstep.dir dr dc) →
        ∃ p qi qp, shiftCell g i dr dc = some p ∧ R.cost i = some qi ∧
          R.cost p = some qp ∧ qp.val ≤ qi.val) := by
  constructor
  · intro pixel tbl bridge water net lc f hpix hn hl hd h
    unfold buildFriction at h
    rcases Option.map_eq_some'.mp h with ⟨s, hs, rfl⟩
    exact div_pos hpix (assignSpeed_pos hn hl hd hs)
  · intro g eight dests R i dr dc Hf h hback
    rcases accessSolve_ok h with ⟨st, hrun, rfl⟩
    have hInv := inv_accessRun Hf hrun
    have hback2 : st.back i = some (Backstep.dir dr dc) := hback
    unfold SState.back at hback2
    rcases Option.map_eq_some'.mp hback2 with ⟨u, hu, hubs⟩
    rcases findRec_mem hu with ⟨humem, hucell⟩
    rcases hInv.backMono u humem dr dc hubs with ⟨p, hps, hpset, v, hv, hle⟩
    refine ⟨p, u.cost, v.cost, ?_, ?_, ?_, ?_⟩
    · rw [← hucell]
      exact hps
    · show st.cost i = some u.cost
      unfold SState.cost
      rw [hu]
      rfl
    · show st.cost p = some v.cost
      unfold SState.cost
      rw [hv]
      rfl
    · exact (Q2.le_iff _ _).mp hle

/-- C7: in every solver run over a nonnegative friction surface,
impassable cells are never expanded into and carry no data in any output
raster; when the queue empties, every never-settled cell carries no data
in all three outputs; and a cell with no passable neighbor and no
destination on it (in particular one fully enclosed by impassable cells
on all 8 sides with no destination inside) carries no data in all three
outputs. -/
theorem C7_impassable_unsettled_enclosed_nodata :
    (∀ (g : FrictionGrid) (eight : Bool) (dests : List Dest) (R : CostResult)
        (i : Nat), NonnegFriction g → accessSolve g eight dests = .ok R →
        frictionIdx g i = none →
        R.cost i = none ∧ R.near i = none ∧ R.back i = none) ∧
    (∀ (g : FrictionGrid) (eight : Bool) (dests : List Dest) (st : SState)
        (i : Nat), NonnegFriction g → accessRun g eight dests = some st →
        st.queue = [] → i ∉ st.settled →
        st.cost i = none ∧ st.near i = none ∧ st.back i = none) ∧
    (∀ (g : FrictionGrid) (eight : Bool) (dests : List Dest) (R : CostResult)
        (i : Nat), NonnegFriction g → accessSolve g eight dests = .ok R →
        ¬ hasPassableNbr g eight i → (∀ d ∈ dests, cellIdx g d ≠ i) →
        R.cost i = none ∧ R.near i = none ∧ R.back i = none) := by
  refine ⟨?_, ?_, ?_⟩
  · intro g eight dests R i Hf h himp
    rcases accessSolve_ok h with ⟨st, hrun, rfl⟩
    have hInv := inv_accessRun Hf hrun
    cases hfr : findRec st.recs i with
    | none => exact findRec_none_outputs hfr
    | some u =>
      exfalso
      rcases findRec_mem hfr with ⟨humem, hucell⟩
      have := hInv.recPassable u humem
      rw [hucell, himp] at this
      cases this
  · intro g eight dests st i Hf hrun hq hset
    cases hfr : findRec st.recs i with
    | none => exact findRec_none_outputs hfr
    | some u =>
      exfalso
      have hInv := inv_accessRun Hf hrun
      rcases findRec_mem hfr with ⟨humem, hucell⟩
      rcases hInv.recReached u humem with hs | ⟨e, he, _⟩
      · exact hset (hucell ▸ hs)
      · rw [hq] at he
        cases he
  · intro g eight dests R i Hf h hnbr hnd
    rcases accessSolve_ok h with ⟨st, hrun, rfl⟩
    have hInv := inv_accessRun Hf hrun
    cases hfr : findRec st.recs i with
    | none => exact findRec_none_outputs hfr
    | some u =>
      exfalso
      rcases findRec_mem hfr with ⟨humem, hucell⟩
      rcases hInv.recOrigin u humem with ⟨d, hd, hcell⟩ | hpn
      · exact hnd d (mem_seedList hd).1 (by rw [hcell, hucell])
      · exact hnbr (hucell ▸ hpn)

/-- C8: a solver run fails with `emptyDestinationSet` exactly when no
destination lies within the grid bounds and is non-impassable; an
in-bounds impassable destination is excluded from the seed set rather
than aborting the run, and as soon as one valid destination exists the
run succeeds. -/
theorem C8_empty_destination_error_iff (g : FrictionGrid) (eight : Bool)
    (dests : List Dest) :
    (accessSolve g eight dests = .error .emptyDestinationSet ↔
      ∀ d ∈ dests, ¬ (inBoundsDest g d ∧ passableDest g d)) ∧
    (∀ d ∈ dests, ¬ passableDest g d → d ∉ seedList g dests) ∧
    ((∃ d ∈ dests, inBoundsDest g d ∧ passableDest g d) →
      ∃ R, accessSolve g eight dests = .ok R) := by
  have hfilter : ((dests.filter fun d =>
      decide (inBoundsDest g d) && decide (passableDest g d)) = [] ↔
      ∀ d ∈ dests, ¬ (inBoundsDest g d ∧ passableDest g d)) := by
    rw [List.filter_eq_nil_iff]
    constructor
    · intro h d hd hc
      have := h d hd
      simp only [Bool.and_eq_true, decide_eq_true_eq] at this
      exact this ⟨hc.1, hc.2⟩
    · intro h d hd
      have := h d hd
      simp only [Bool.and_eq_true, decide_eq_true_eq]
      exact fun hc => this ⟨hc.1, hc.2⟩
  have hseednil : (seedList g dests = [] ↔
      (dests.filter fun d =>
        decide (inBoundsDest g d) && decide (passableDest g d)) = []) := by
    unfold seedList
    cases hf : dests.filter fun d =>
        decide (inBoundsDest g d) && decide (passableDest g d) with
    | nil => simp [dedupDest]
    | cons x xs =>
      constructor
      · intro hd
        rw [dedupDest, if_neg (by simp)] at hd
        cases hd
      · intro hd
        cases hd
  have herr : accessSolve g eight dests = .error .emptyDestinationSet ↔
      seedList g dests = [] := by
    unfold accessSolve accessRun
    by_cases he : (seedList g dests).isEmpty
    · rw [if_pos he]
      simp only [true_iff]
      exact List.isEmpty_iff.mp he
    · rw [if_neg he]
      constructor
      · intro h
        cases h
      · intro h
        exact absurd (List.isEmpty_iff.mpr h) he
  refine ⟨?_, ?_, ?_⟩
  · rw [herr, hseednil]
    exact hfilter
  · intro d hd hp hmem
    exact hp (mem_seedList hmem).2.2
  · intro hex
    have hne : ¬ (seedList g dests).isEmpty := by
      intro he
      rcases hex with ⟨d, hd, hc⟩
      have := (hseednil.mp (List.isEmpty_iff.mp he))
      rw [List.filter_eq_nil_iff] at this
      have := this d hd
      simp only [Bool.and_eq_true, decide_eq_true_eq] at this
      exact this ⟨hc.1, hc.2⟩
    unfold accessSolve accessRun
    rw [if_neg hne]
    exact ⟨_, rfl⟩

/-- C9: the Friction Surface Builder's per-cell precedence — the water
mask marks the cell impassable unless the network layer holds the
reserved bridge/crossing override category (regardless of every speed in
the table); otherwise a mapped network category's speed wins over any
land-cover assignment; a mapped land-cover category's speed is used when
the network assigns none; and the default speed is used when both are
unmapped. -/
theorem C9_speed_precedence :
    (∀ (tbl : SpeedTable) (bridge : Nat) (net lc : Option Nat),
        net ≠ some bridge → assignSpeed tbl bridge true net lc = none) ∧
    (∀ (tbl : SpeedTable) (bridge : Nat) (water : Bool) (net lc : Option Nat)
        (k : Nat) (s : ℚ), net = some k → tbl.network k = some s →
        (water = true → net = some bridge) →
        assignSpeed tbl bridge water net lc = some s) ∧
    (∀ (tbl : SpeedTable) (bridge : Nat) (water : Bool) (net lc : Option Nat)
        (k : Nat) (s : ℚ), (water = true → net = some bridge) →
        net.bind tbl.network = none → lc = some k → tbl.landcover k = some s →
        assignSpeed tbl bridge water net lc = some s) ∧
    (∀ (tbl : SpeedTable) (bridge : Nat) (water : Bool) (net lc : Option Nat),
        (water = true → net = some bridge) → net.bind tbl.network = none →
        lc.bind tbl.landcover = none →
        assignSpeed tbl bridge water net lc = some tbl.deflt) := by
  refine ⟨?_, ?_, ?_, ?_⟩
  · intro tbl bridge net lc hne
    unfold assignSpeed
    rw [if_pos ⟨rfl, hne⟩]
  · intro tbl bridge water net lc k s hnet hk hwb
    have hcond : ¬ (water = true ∧ net ≠ some bridge) := by
      rintro ⟨hw, hne⟩
      exact hne (hwb hw)
    have h1 : net.bind tbl.network = some s := by
      rw [hnet]
      exact hk
    unfold assignSpeed
    rw [if_neg hcond, h1]
  · intro tbl bridge water net lc k s hwb hnet hlc hk
    have hcond : ¬ (water = true ∧ net ≠ some bridge) := by
      rintro ⟨hw, hne⟩
      exact hne (hwb hw)
    have h2 : lc.bind tbl.landcover = some s := by
      rw [hlc]
      exact hk
    unfold assignSpeed
    rw [if_neg hcond, hnet, h2]
  · intro tbl bridge water net lc hwb hnet hlc
    have hcond : ¬ (water = true ∧ net ≠ some bridge) := by
      rintro ⟨hw, hne⟩
      exact hne (hwb hw)
    unfold assignSpeed
    rw [if_neg hcond, hnet, hlc]

/-- C10: when the `access` operation is invoked without destination
points, health facilities extracted from OpenStreetMap are the
destination set of the cost-distance analysis, and with no scenario flags
only the car scenario runs — the solver is never handed an empty
destination set merely because the caller supplied none. -/
theorem C10_access_defaults :
    accessDestSource ⟨none, none, none, none⟩ = DestSource.osmHealthFacilities ∧
    accessScenarios ⟨none, none, none, none⟩ = [Scenario.car] ∧
    (∀ opts : AccessOpts, opts.destinations = none →
      accessDestSource opts = DestSource.osmHealthFacilities) := by
  refine ⟨rfl, rfl, ?_⟩
  intro opts h
  unfold accessDestSource
  rw [h]

/-!
## Concrete runs

The search loop unfolds one checked iteration at a time, so concrete runs
can be verified step by step against explicit intermediate states.
-/

/-- Loop unfolding: empty queue. -/
theorem loop_succ_nil {g : FrictionGrid} {eight : Bool} {fuel : Nat}
    {st : SState} (h : st.queue.isEmpty = true) :
    loop g eight (fuel + 1) st = st := by
  rw [loop, if_pos h]

/-- Loop unfolding: one iteration on a nonempty queue. -/
theorem loop_succ_ne {g : FrictionGrid} {eight : Bool} {fuel : Nat}
    {st st' : SState} (hstep : loopStep g eight st = st')
    (h : st.queue.isEmpty = false) :
    loop g eight (fuel + 1) st = loop g eight fuel st' := by
  rw [loop, if_neg (by simp [h]), hstep]

/-- The 5x5 uniform-friction grid of the spec's concrete scenario. -/
def c1grid : FrictionGrid :=
  ⟨5, 5, fun r c => if r < 5 ∧ c < 5 then some 1 else none⟩

/-- Intermediate state 0 of the c1 run. -/
def c1s0 : SState :=
  ⟨[⟨12, ⟨0, 0⟩, 7, Backstep.dest⟩],
  [], [⟨⟨0, 0⟩, 7, 12⟩]⟩

/-- Intermediate state 1 of the c1 run. -/
def c1s1 : SState :=
  ⟨[⟨18, ⟨0, 2⟩, 7, Backstep.dir (-1) (-1)⟩, ⟨17, ⟨2, 0⟩, 7, Backstep.dir (-1) 0⟩, ⟨16, ⟨0, 2⟩, 7, Backstep.dir (-1) 1⟩, ⟨13, ⟨2, 0⟩, 7, Backstep.dir 0 (-1)⟩, ⟨11, ⟨2, 0⟩, 7, Backstep.dir 0 1⟩, ⟨8, ⟨0, 2⟩, 7, Backstep.dir 1 (-1)⟩, ⟨7, ⟨2, 0⟩, 7, Backstep.dir 1 0⟩, ⟨6, ⟨0, 2⟩, 7, Backstep.dir 1 1⟩, ⟨12, ⟨0, 0⟩, 7, Backstep.dest⟩],
  [12], [⟨⟨0, 2⟩, 7, 18⟩, ⟨⟨2, 0⟩, 7, 17⟩, ⟨⟨0, 2⟩, 7, 16⟩, ⟨⟨2, 0⟩, 7, 13⟩, ⟨⟨2, 0⟩, 7, 11⟩, ⟨⟨0, 2⟩, 7, 8⟩, ⟨⟨2, 0⟩, 7, 7⟩, ⟨⟨0, 2⟩, 7, 6⟩]⟩

/-- Intermediate state 2 of the c1 run. -/
def c1s2 : SState :=
  ⟨[⟨3, ⟨2, 2⟩, 7, Backstep.dir 1 (-1)⟩, ⟨2, ⟨4, 0⟩, 7, Backstep.dir 1 0⟩, ⟨1, ⟨2, 2⟩, 7, Backstep.dir 1 1⟩, ⟨18, ⟨0, 2⟩, 7, Backstep.dir (-1) (-1)⟩, ⟨17, ⟨2, 0⟩, 7, Backstep.dir (-1) 0⟩, ⟨16, ⟨0, 2⟩, 7, Backstep.dir (-1) 1⟩, ⟨13, ⟨2, 0⟩, 7, Backstep.dir 0 (-1)⟩, ⟨11, ⟨2, 0⟩, 7, Backstep.dir 0 1⟩, ⟨8, ⟨0, 2⟩, 7, Backstep.dir 1 (-1)⟩, ⟨7, ⟨2, 0⟩, 7, Backstep.dir 1 0⟩, ⟨6, ⟨0, 2⟩, 7, Backstep.dir 1 1⟩, ⟨12, ⟨0, 0⟩, 7, Backstep.dest⟩],
  [7, 12], [⟨⟨2, 2⟩, 7, 3⟩, ⟨⟨4, 0⟩, 7, 2⟩, ⟨⟨2, 2⟩, 7, 1⟩, ⟨⟨0, 2⟩, 7, 18⟩, ⟨⟨2, 0⟩, 7, 17⟩, ⟨⟨0, 2⟩, 7, 16⟩, ⟨⟨2, 0⟩, 7, 13⟩, ⟨⟨2, 0⟩, 7, 11⟩, ⟨⟨0, 2⟩, 7, 8⟩, ⟨⟨0, 2⟩, 7, 6⟩]⟩

/-- Intermediate state 3 of the c1 run. -/
def c1s3 : SState :=
  ⟨[⟨15, ⟨2, 2⟩, 7, Backstep.dir (-1) 1⟩, ⟨10, ⟨4, 0⟩, 7, Backstep.dir 0 1⟩, ⟨5, ⟨2, 2⟩, 7, Backstep.dir 1 1⟩, ⟨3, ⟨2, 2⟩, 7, Backstep.dir 1 (-1)⟩, ⟨2, ⟨4, 0⟩, 7, Backstep.dir 1 0⟩, ⟨1, ⟨2, 2⟩, 7, Backstep.dir 1 1⟩, ⟨18, ⟨0, 2⟩, 7, Backstep.dir (-1) (-1)⟩, ⟨17, ⟨2, 0⟩, 7, Backstep.dir (-1) 0⟩, ⟨16, ⟨0, 2⟩, 7, Backstep.dir (-1) 1⟩, ⟨13, ⟨2, 0⟩, 7, Backstep.dir 0 (-1)⟩, ⟨11, ⟨2, 0⟩, 7, Backstep.dir 0 1⟩, ⟨8, ⟨0, 2⟩, 7, Backstep.dir 1 (-1)⟩, ⟨7, ⟨2, 0⟩, 7, Backstep.dir 1 0⟩, ⟨6, ⟨0, 2⟩, 7, Backstep.dir 1 1⟩, ⟨12, ⟨0, 0⟩, 7, Backstep.dest⟩],
  [11, 7, 12], [⟨⟨2, 2⟩, 7, 15⟩, ⟨⟨4, 0⟩, 7, 10⟩, ⟨⟨2, 2⟩, 7, 5⟩, ⟨⟨2, 2⟩, 7, 3⟩, ⟨⟨4, 0⟩, 7, 2⟩, ⟨⟨2, 2⟩, 7, 1⟩, ⟨⟨0, 2⟩, 7, 18⟩, ⟨⟨2, 0⟩, 7, 17⟩, ⟨⟨0, 2⟩, 7, 16⟩, ⟨⟨2, 0⟩, 7, 13⟩, ⟨⟨0, 2⟩, 7, 8⟩, ⟨⟨0, 2⟩, 7, 6⟩]⟩

/-- Intermediate state 4 of the c1 run. -/
def c1s4 : SState :=
  ⟨[⟨19, ⟨2, 2⟩, 7, Backstep.dir (-1) (-1)⟩, ⟨14, ⟨4, 0⟩, 7, Backstep.dir 0 (-1)⟩, ⟨9, ⟨2, 2⟩, 7, Backstep.dir 1 (-1)⟩, ⟨15, ⟨2, 2⟩, 7, Backstep.dir (-1) 1⟩, ⟨10, ⟨4, 0⟩, 7, Backstep.dir 0 1⟩, ⟨5, ⟨2, 2⟩, 7, Backstep.dir 1 1⟩, ⟨3, ⟨2, 2⟩, 7, Backstep.dir 1 (-1)⟩, ⟨2, ⟨4, 0⟩, 7, Backstep.dir 1 0⟩, ⟨1, ⟨2, 2⟩, 7, Backstep.dir 1 1⟩, ⟨18, ⟨0, 2⟩, 7, Backstep.dir (-1) (-1)⟩, ⟨17, ⟨2, 0⟩, 7, Backstep.dir (-1) 0⟩, ⟨16, ⟨0, 2⟩, 7, Backstep.dir (-1) 1⟩, ⟨13, ⟨2, 0⟩, 7, Backstep.dir 0 (-1)⟩, ⟨11, ⟨2, 0⟩, 7, Backstep.dir 0 1⟩, ⟨8, ⟨0, 2⟩, 7, Backstep.dir 1 (-1)⟩, ⟨7, ⟨2, 0⟩, 7, Backstep.dir 1 0⟩, ⟨6, ⟨0, 2⟩, 7, Backstep.dir 1 1⟩, ⟨12, ⟨0, 0⟩, 7, Backstep.dest⟩],
  [13, 11, 7, 12], [⟨⟨2, 2⟩, 7, 19⟩, ⟨⟨4, 0⟩, 7, 14⟩, ⟨⟨2, 2⟩, 7, 9⟩, ⟨⟨2, 2⟩, 7, 15⟩, ⟨⟨4, 0⟩, 7, 10⟩, ⟨⟨2, 2⟩, 7, 5⟩, ⟨⟨2, 2⟩, 7, 3⟩, ⟨⟨4, 0⟩, 7, 2⟩, ⟨⟨2, 2⟩, 7, 1⟩, ⟨⟨0, 2⟩, 7, 18⟩, ⟨⟨2, 0⟩, 7, 17⟩, ⟨⟨0, 2⟩, 7, 16⟩, ⟨⟨0, 2⟩, 7, 8⟩, ⟨⟨0, 2⟩, 7, 6⟩]⟩

/-- Intermediate state 5 of the c1 run. -/
def c1s5 : SState :=
  ⟨[⟨23, ⟨2, 2⟩, 7, Backstep.dir (-1) (-1)⟩, ⟨22, ⟨4, 0⟩, 7, Backstep.dir (-1) 0⟩, ⟨21, ⟨2, 2⟩, 7, Backstep.dir (-1) 1⟩, ⟨19, ⟨2, 2⟩, 7, Backstep.dir (-1) (-1)⟩, ⟨14, ⟨4, 0⟩, 7, Backstep.dir 0 (-1)⟩, ⟨9, ⟨2, 2⟩, 7, Backstep.dir 1 (-1)⟩, ⟨15, ⟨2, 2⟩, 7, Backstep.dir (-1) 1⟩, ⟨10, ⟨4, 0⟩, 7, Backstep.dir 0 1⟩, ⟨5, ⟨2, 2⟩, 7, Backstep.dir 1 1⟩, ⟨3, ⟨2, 2⟩, 7, Backstep.dir 1 (-1)⟩, ⟨2, ⟨4, 0⟩, 7, Backstep.dir 1 0⟩, ⟨1, ⟨2, 2⟩, 7, Backstep.dir 1 1⟩, ⟨18, ⟨0, 2⟩, 7, Backstep.dir (-1) (-1)⟩, ⟨17, ⟨2, 0⟩, 7, Backstep.dir (-1) 0⟩, ⟨16, ⟨0, 2⟩, 7, Backstep.dir (-1) 1⟩, ⟨13, ⟨2, 0⟩, 7, Backstep.dir 0 (-1)⟩, ⟨11, ⟨2, 0⟩, 7, Backstep.dir 0 1⟩, ⟨8, ⟨0, 2⟩, 7, Backstep.dir 1 (-1)⟩, ⟨7, ⟨2, 0⟩, 7, Backstep.dir 1 0⟩, ⟨6, ⟨0, 2⟩, 7, Backstep.dir 1 1⟩, ⟨12, ⟨0, 0⟩, 7, Backstep.dest⟩],
  [17, 13, 11, 7, 12], [⟨⟨2, 2⟩, 7, 23⟩, ⟨⟨4, 0⟩, 7, 22⟩, ⟨⟨2, 2⟩, 7, 21⟩, ⟨⟨2, 2⟩, 7, 19⟩, ⟨⟨4, 0⟩, 7, 14⟩, ⟨⟨2, 2⟩, 7, 9⟩, ⟨⟨2, 2⟩, 7, 15⟩, ⟨⟨4, 0⟩, 7, 10⟩, ⟨⟨2, 2⟩, 7, 5⟩, ⟨⟨2, 2⟩, 7, 3⟩, ⟨⟨4, 0⟩, 7, 2⟩, ⟨⟨2, 2⟩, 7, 1⟩, ⟨⟨0, 2⟩, 7, 18⟩, ⟨⟨0, 2⟩, 7, 16⟩, ⟨⟨0, 2⟩, 7, 8⟩, ⟨⟨0, 2⟩, 7, 6⟩]⟩

/-- Intermediate state 6 of the c1 run. -/
def c1s6 : SState :=
  ⟨[⟨0, ⟨0, 4⟩, 7, Backstep.dir 1 1⟩, ⟨23, ⟨2, 2⟩, 7, Backstep.dir (-1) (-1)⟩, ⟨22, ⟨4, 0⟩, 7, Backstep.dir (-1) 0⟩, ⟨21, ⟨2, 2⟩, 7, Backstep.dir (-1) 1⟩, ⟨19, ⟨2, 2⟩, 7, Backstep.dir (-1) (-1)⟩, ⟨14, ⟨4, 0⟩, 7, Backstep.dir 0 (-1)⟩, ⟨9, ⟨2, 2⟩, 7, Backstep.dir 1 (-1)⟩, ⟨15, ⟨2, 2⟩, 7, Backstep.dir (-1) 1⟩, ⟨10, ⟨4, 0⟩, 7, Backstep.dir 0 1⟩, ⟨5, ⟨2, 2⟩, 7, Backstep.dir 1 1⟩, ⟨3, ⟨2, 2⟩, 7, Backstep.dir 1 (-1)⟩, ⟨2, ⟨4, 0⟩, 7, Backstep.dir 1 0⟩, ⟨1, ⟨2, 2⟩, 7, Backstep.dir 1 1⟩, ⟨18, ⟨0, 2⟩, 7, Backstep.dir (-1) (-1)⟩, ⟨17, ⟨2, 0⟩, 7, Backstep.dir (-1) 0⟩, ⟨16, ⟨0, 2⟩, 7, Backstep.dir (-1) 1⟩, ⟨13, ⟨2, 0⟩, 7, Backstep.dir 0 (-1)⟩, ⟨11, ⟨2, 0⟩, 7, Backstep.dir 0 1⟩, ⟨8, ⟨0, 2⟩, 7, Backstep.dir 1 (-1)⟩, ⟨7, ⟨2, 0⟩, 7, Backstep.dir 1 0⟩, ⟨6, ⟨0, 2⟩, 7, Backstep.dir 1 1⟩, ⟨12, ⟨0, 0⟩, 7, Backstep.dest⟩],
  [6, 17, 13, 11, 7, 12], [⟨⟨0, 4⟩, 7, 0⟩, ⟨⟨2, 2⟩, 7, 23⟩, ⟨⟨4, 0⟩, 7, 22⟩, ⟨⟨2, 2⟩, 7, 21⟩, ⟨⟨2, 2⟩, 7, 19⟩, ⟨⟨4, 0⟩, 7, 14⟩, ⟨⟨2, 2⟩, 7, 9⟩, ⟨⟨2, 2⟩, 7, 15⟩, ⟨⟨4, 0⟩, 7, 10⟩, ⟨⟨2, 2⟩, 7, 5⟩, ⟨⟨2, 2⟩, 7, 3⟩, ⟨⟨4, 0⟩, 7, 2⟩, ⟨⟨2, 2⟩, 7, 1⟩, ⟨⟨0, 2⟩, 7, 18⟩, ⟨⟨0, 2⟩, 7, 16⟩, ⟨⟨0, 2⟩, 7, 8⟩]⟩

/-- Intermediate state 7 of the c1 run. -/
def c1s7 : SState :=
  ⟨[⟨4, ⟨0, 4⟩, 7, Backstep.dir 1 (-1)⟩, ⟨0, ⟨0, 4⟩, 7, Backstep.dir 1 1⟩, ⟨23, ⟨2, 2⟩, 7, Backstep.dir (-1) (-1)⟩, ⟨22, ⟨4, 0⟩, 7, Backstep.dir (-1) 0⟩, ⟨21, ⟨2, 2⟩, 7, Backstep.dir (-1) 1⟩, ⟨19, ⟨2, 2⟩, 7, Backstep.dir (-1) (-1)⟩, ⟨14, ⟨4, 0⟩, 7, Backstep.dir 0 (-1)⟩, ⟨9, ⟨2, 2⟩, 7, Backstep.dir 1 (-1)⟩, ⟨15, ⟨2, 2⟩, 7, Backstep.dir (-1) 1⟩, ⟨10, ⟨4, 0⟩, 7, Backstep.dir 0 1⟩, ⟨5, ⟨2, 2⟩, 7, Backstep.dir 1 1⟩, ⟨3, ⟨2, 2⟩, 7, Backstep.dir 1 (-1)⟩, ⟨2, ⟨4, 0⟩, 7, Backstep.dir 1 0⟩, ⟨1, ⟨2, 2⟩, 7, Backstep.dir 1 1⟩, ⟨18, ⟨0, 2⟩, 7, Backstep.dir (-1) (-1)⟩, ⟨17, ⟨2, 0⟩, 7, Backstep.dir (-1) 0⟩, ⟨16, ⟨0, 2⟩, 7, Backstep.dir (-1) 1⟩, ⟨13, ⟨2, 0⟩, 7, Backstep.dir 0 (-1)⟩, ⟨11, ⟨2, 0⟩, 7, Backstep.dir 0 1⟩, ⟨8, ⟨0, 2⟩, 7, Backstep.dir 1 (-1)⟩, ⟨7, ⟨2, 0⟩, 7, Backstep.dir 1 0⟩, ⟨6, ⟨0, 2⟩, 7, Backstep.dir 1 1⟩, ⟨12, ⟨0, 0⟩, 7, Backstep.dest⟩],
  [8, 6, 17, 13, 11, 7, 12], [⟨⟨0, 4⟩, 7, 4⟩, ⟨⟨0, 4⟩, 7, 0⟩, ⟨⟨2, 2⟩, 7, 23⟩, ⟨⟨4, 0⟩, 7, 22⟩, ⟨⟨2, 2⟩, 7, 21⟩, ⟨⟨2, 2⟩, 7, 19⟩, ⟨⟨4, 0⟩, 7, 14⟩, ⟨⟨2, 2⟩, 7, 9⟩, ⟨⟨2, 2⟩, 7, 15⟩, ⟨⟨4, 0⟩, 7, 10⟩, ⟨⟨2, 2⟩, 7, 5⟩, ⟨⟨2, 2⟩, 7, 3⟩, ⟨⟨4, 0⟩, 7, 2⟩, ⟨⟨2, 2⟩, 7, 1⟩, ⟨⟨0, 2⟩, 7, 18⟩, ⟨⟨0, 2⟩, 7, 16⟩]⟩

/-- Intermediate state 8 of the c1 run. -/
def c1s8 : SState :=
  ⟨[⟨20, ⟨0, 4⟩, 7, Backstep.dir (-1) 1⟩, ⟨4, ⟨0, 4⟩, 7, Backstep.dir 1 (-1)⟩, ⟨0, ⟨0, 4⟩, 7, Backstep.dir 1 1⟩, ⟨23, ⟨2, 2⟩, 7, Backstep.dir (-1) (-1)⟩, ⟨22, ⟨4, 0⟩, 7, Backstep.dir (-1) 0⟩, ⟨21, ⟨2, 2⟩, 7, Backstep.dir (-1) 1⟩, ⟨19, ⟨2, 2⟩, 7, Backstep.dir (-1) (-1)⟩, ⟨14, ⟨4, 0⟩, 7, Backstep.dir 0 (-1)⟩, ⟨9, ⟨2, 2⟩, 7, Backstep.dir 1 (-1)⟩, ⟨15, ⟨2, 2⟩, 7, Backstep.dir (-1) 1⟩, ⟨10, ⟨4, 0⟩, 7, Backstep.dir 0 1⟩, ⟨5, ⟨2, 2⟩, 7, Backstep.dir 1 1⟩, ⟨3, ⟨2, 2⟩, 7, Backstep.dir 1 (-1)⟩, ⟨2, ⟨4, 0⟩, 7, Backstep.dir 1 0⟩, ⟨1, ⟨2, 2⟩, 7, Backstep.dir 1 1⟩, ⟨18, ⟨0, 2⟩, 7, Backstep.dir (-1) (-1)⟩, ⟨17, ⟨2, 0⟩, 7, Backstep.dir (-1) 0⟩, ⟨16, ⟨0, 2⟩, 7, Backstep.dir (-1) 1⟩, ⟨13, ⟨2, 0⟩, 7, Backstep.dir 0 (-1)⟩, ⟨11, ⟨2, 0⟩, 7, Backstep.dir 0 1⟩, ⟨8, ⟨0, 2⟩, 7, Backstep.dir 1 (-1)⟩, ⟨7, ⟨2, 0⟩, 7, Backstep.dir 1 0⟩, ⟨6, ⟨0, 2⟩, 7, Backstep.dir 1 1⟩, ⟨12, ⟨0, 0⟩, 7, Backstep.dest⟩],
  [16, 8, 6, 17, 13, 11, 7, 12], [⟨⟨0, 4⟩, 7, 20⟩, ⟨⟨0, 4⟩, 7, 4⟩, ⟨⟨0, 4⟩, 7, 0⟩, ⟨⟨2, 2⟩, 7, 23⟩, ⟨⟨4, 0⟩, 7, 22⟩, ⟨⟨2, 2⟩, 7, 21⟩, ⟨⟨2, 2⟩, 7, 19⟩, ⟨⟨4, 0⟩, 7, 14⟩, ⟨⟨2, 2⟩, 7, 9⟩, ⟨⟨2, 2⟩, 7, 15⟩, ⟨⟨4, 0⟩, 7, 10⟩, ⟨⟨2, 2⟩, 7, 5⟩, ⟨⟨2, 2⟩, 7, 3⟩, ⟨⟨4, 0⟩, 7, 2⟩, ⟨⟨2, 2⟩, 7, 1⟩, ⟨⟨0, 2⟩, 7, 18⟩]⟩

/-- Intermediate state 9 of the c1 run. -/
def c1s9 : SState :=
  ⟨[⟨24, ⟨0, 4⟩, 7, Backstep.dir (-1) (-1)⟩, ⟨20, ⟨0, 4⟩, 7, Backstep.dir (-1) 1⟩, ⟨4, ⟨0, 4⟩, 7, Backstep.dir 1 (-1)⟩, ⟨0, ⟨0, 4⟩, 7, Backstep.dir 1 1⟩, ⟨23, ⟨2, 2⟩, 7, Backstep.dir (-1) (-1)⟩, ⟨22, ⟨4, 0⟩, 7, Backstep.dir (-1) 0⟩, ⟨21, ⟨2, 2⟩, 7, Backstep.dir (-1) 1⟩, ⟨19, ⟨2, 2⟩, 7, Backstep.dir (-1) (-1)⟩, ⟨14, ⟨4, 0⟩, 7, Backstep.dir 0 (-1)⟩, ⟨9, ⟨2, 2⟩, 7, Backstep.dir 1 (-1)⟩, ⟨15, ⟨2, 2⟩, 7, Backstep.dir (-1) 1⟩, ⟨10, ⟨4, 0⟩, 7, Backstep.dir 0 1⟩, ⟨5, ⟨2, 2⟩, 7, Backstep.dir 1 1⟩, ⟨3, ⟨2, 2⟩, 7, Backstep.dir 1 (-1)⟩, ⟨2, ⟨4, 0⟩, 7, Backstep.dir 1 0⟩, ⟨1, ⟨2, 2⟩, 7, Backstep.dir 1 1⟩, ⟨18, ⟨0, 2⟩, 7, Backstep.dir (-1) (-1)⟩, ⟨17, ⟨2, 0⟩, 7, Backstep.dir (-1) 0⟩, ⟨16, ⟨0, 2⟩, 7, Backstep.dir (-1) 1⟩, ⟨13, ⟨2, 0⟩, 7, Backstep.dir 0 (-1)⟩, ⟨11, ⟨2, 0⟩, 7, Backstep.dir 0 1⟩, ⟨8, ⟨0, 2⟩, 7, Backstep.dir 1 (-1)⟩, ⟨7, ⟨2, 0⟩, 7, Backstep.dir 1 0⟩, ⟨6, ⟨0, 2⟩, 7, Backstep.dir 1 1⟩, ⟨12, ⟨0, 0⟩, 7, Backstep.dest⟩],
  [18, 16, 8, 6, 17, 13, 11, 7, 12], [⟨⟨0, 4⟩, 7, 24⟩, ⟨⟨0, 4⟩, 7, 20⟩, ⟨⟨0, 4⟩, 7, 4⟩, ⟨⟨0, 4⟩, 7, 0⟩, ⟨⟨2, 2⟩, 7, 23⟩, ⟨⟨4, 0⟩, 7, 22⟩, ⟨⟨2, 2⟩, 7, 21⟩, ⟨⟨2, 2⟩, 7, 19⟩, ⟨⟨4, 0⟩, 7, 14⟩, ⟨⟨2, 2⟩, 7, 9⟩, ⟨⟨2, 2⟩, 7, 15⟩, ⟨⟨4, 0⟩, 7, 10⟩, ⟨⟨2, 2⟩, 7, 5⟩, ⟨⟨2, 2⟩, 7, 3⟩, ⟨⟨4, 0⟩, 7, 2⟩, ⟨⟨2, 2⟩, 7, 1⟩]⟩

/-- Intermediate state 10 of the c1 run. -/
def c1s10 : SState :=
  ⟨[⟨24, ⟨0, 4⟩, 7, Backstep.dir (-1) (-1)⟩, ⟨20, ⟨0, 4⟩, 7, Backstep.dir (-1) 1⟩, ⟨4, ⟨0, 4⟩, 7, Backstep.dir 1 (-1)⟩, ⟨0, ⟨0, 4⟩, 7, Backstep.dir 1 1⟩, ⟨23, ⟨2, 2⟩, 7, Backstep.dir (-1) (-1)⟩, ⟨22, ⟨4, 0⟩, 7, Backstep.dir (-1) 0⟩, ⟨21, ⟨2, 2⟩, 7, Backstep.dir (-1) 1⟩, ⟨19, ⟨2, 2⟩, 7, Backstep.dir (-1) (-1)⟩, ⟨14, ⟨4, 0⟩, 7, Backstep.dir 0 (-1)⟩, ⟨9, ⟨2, 2⟩, 7, Backstep.dir 1 (-1)⟩, ⟨15, ⟨2, 2⟩, 7, Backstep.dir (-1) 1⟩, ⟨10, ⟨4, 0⟩, 7, Backstep.dir 0 1⟩, ⟨5, ⟨2, 2⟩, 7, Backstep.dir 1 1⟩, ⟨3, ⟨2, 2⟩, 7, Backstep.dir 1 (-1)⟩, ⟨2, ⟨4, 0⟩, 7, Backstep.dir 1 0⟩, ⟨1, ⟨2, 2⟩, 7, Backstep.dir 1 1⟩, ⟨18, ⟨0, 2⟩, 7, Backstep.dir (-1) (-1)⟩, ⟨17, ⟨2, 0⟩, 7, Backstep.dir (-1) 0⟩, ⟨16, ⟨0, 2⟩, 7, Backstep.dir (-1) 1⟩, ⟨13, ⟨2, 0⟩, 7, Backstep.dir 0 (-1)⟩, ⟨11, ⟨2, 0⟩, 7, Backstep.dir 0 1⟩, ⟨8, ⟨0, 2⟩, 7, Backstep.dir 1 (-1)⟩, ⟨7, ⟨2, 0⟩, 7, Backstep.dir 1 0⟩, ⟨6, ⟨0, 2⟩, 7, Backstep.dir 1 1⟩, ⟨12, ⟨0, 0⟩, 7, Backstep.dest⟩],
  [2, 18, 16, 8, 6, 17, 13, 11, 7, 12], [⟨⟨0, 4⟩, 7, 24⟩, ⟨⟨0, 4⟩, 7, 20⟩, ⟨⟨0, 4⟩, 7, 4⟩, ⟨⟨0, 4⟩, 7, 0⟩, ⟨⟨2, 2⟩, 7, 23⟩, ⟨⟨4, 0⟩, 7, 22⟩, ⟨⟨2, 2⟩, 7, 21⟩, ⟨⟨2, 2⟩, 7, 19⟩, ⟨⟨4, 0⟩, 7, 14⟩, ⟨⟨2, 2⟩, 7, 9⟩, ⟨⟨2, 2⟩, 7, 15⟩, ⟨⟨4, 0⟩, 7, 10⟩, ⟨⟨2, 2⟩, 7, 5⟩, ⟨⟨2, 2⟩, 7, 3⟩, ⟨⟨2, 2⟩, 7, 1⟩]⟩

/-- Intermediate state 11 of the c1 run. -/
def c1s11 : SState :=
  ⟨[⟨24, ⟨0, 4⟩, 7, Backstep.dir (-1) (-1)⟩, ⟨20, ⟨0, 4⟩, 7, Backstep.dir (-1) 1⟩, ⟨4, ⟨0, 4⟩, 7, Backstep.dir 1 (-1)⟩, ⟨0, ⟨0, 4⟩, 7, Backstep.dir 1 1⟩, ⟨23, ⟨2, 2⟩, 7, Backstep.dir (-1) (-1)⟩, ⟨22, ⟨4, 0⟩, 7, Backstep.dir (-1) 0⟩, ⟨21, ⟨2, 2⟩, 7, Backstep.dir (-1) 1⟩, ⟨19, ⟨2, 2⟩, 7, Backstep.dir (-1) (-1)⟩, ⟨14, ⟨4, 0⟩, 7, Backstep.dir 0 (-1)⟩, ⟨9, ⟨2, 2⟩, 7, Backstep.dir 1 (-1)⟩, ⟨15, ⟨2, 2⟩, 7, Backstep.dir (-1) 1⟩, ⟨10, ⟨4, 0⟩, 7, Backstep.dir 0 1⟩, ⟨5, ⟨2, 2⟩, 7, Backstep.dir 1 1⟩, ⟨3, ⟨2, 2⟩, 7, Backstep.dir 1 (-1)⟩, ⟨2, ⟨4, 0⟩, 7, Backstep.dir 1 0⟩, ⟨1, ⟨2, 2⟩, 7, Backstep.dir 1 1⟩, ⟨18, ⟨0, 2⟩, 7, Backstep.dir (-1) (-1)⟩, ⟨17, ⟨2, 0⟩, 7, Backstep.dir (-1) 0⟩, ⟨16, ⟨0, 2⟩, 7, Backstep.dir (-1) 1⟩, ⟨13, ⟨2, 0⟩, 7, Backstep.dir 0 (-1)⟩, ⟨11, ⟨2, 0⟩, 7, Backstep.dir 0 1⟩, ⟨8, ⟨0, 2⟩, 7, Backstep.dir 1 (-1)⟩, ⟨7, ⟨2, 0⟩, 7, Backstep.dir 1 0⟩, ⟨6, ⟨0, 2⟩, 7, Backstep.dir 1 1⟩, ⟨12, ⟨0, 0⟩, 7, Backstep.dest⟩],
  [10, 2, 18, 16, 8, 6, 17, 13, 11, 7, 12], [⟨⟨0, 4⟩, 7, 24⟩, ⟨⟨0, 4⟩, 7, 20⟩, ⟨⟨0, 4⟩, 7, 4⟩, ⟨⟨0, 4⟩, 7, 0⟩, ⟨⟨2, 2⟩, 7, 23⟩, ⟨⟨4, 0⟩, 7, 22⟩, ⟨⟨2, 2⟩, 7, 21⟩, ⟨⟨2, 2⟩, 7, 19⟩, ⟨⟨4, 0⟩, 7, 14⟩, ⟨⟨2, 2⟩, 7, 9⟩, ⟨⟨2, 2⟩, 7, 15⟩, ⟨⟨2, 2⟩, 7, 5⟩, ⟨⟨2, 2⟩, 7, 3⟩, ⟨⟨2, 2⟩, 7, 1⟩]⟩

/-- Intermediate state 12 of the c1 run. -/
def c1s12 : SState :=
  ⟨[⟨24, ⟨0, 4⟩, 7, Backstep.dir (-1) (-1)⟩, ⟨20, ⟨0, 4⟩, 7, Backstep.dir (-1) 1⟩, ⟨4, ⟨0, 4⟩, 7, Backstep.dir 1 (-1)⟩, ⟨0, ⟨0, 4⟩, 7, Backstep.dir 1 1⟩, ⟨23, ⟨2, 2⟩, 7, Backstep.dir (-1) (-1)⟩, ⟨22, ⟨4, 0⟩, 7, Backstep.dir (-1) 0⟩, ⟨21, ⟨2, 2⟩, 7, Backstep.dir (-1) 1⟩, ⟨19, ⟨2, 2⟩, 7, Backstep.dir (-1) (-1)⟩, ⟨14, ⟨4, 0⟩, 7, Backstep.dir 0 (-1)⟩, ⟨9, ⟨2, 2⟩, 7, Backstep.dir 1 (-1)⟩, ⟨15, ⟨2, 2⟩, 7, Backstep.dir (-1) 1⟩, ⟨10, ⟨4, 0⟩, 7, Backstep.dir 0 1⟩, ⟨5, ⟨2, 2⟩, 7, Backstep.dir 1 1⟩, ⟨3, ⟨2, 2⟩, 7, Backstep.dir 1 (-1)⟩, ⟨2, ⟨4, 0⟩, 7, Backstep.dir 1 0⟩, ⟨1, ⟨2, 2⟩, 7, Backstep.dir 1 1⟩, ⟨18, ⟨0, 2⟩, 7, Backstep.dir (-1) (-1)⟩, ⟨17, ⟨2, 0⟩, 7, Backstep.dir (-1) 0⟩, ⟨16, ⟨0, 2⟩, 7, Backstep.dir (-1) 1⟩, ⟨13, ⟨2, 0⟩, 7, Backstep.dir 0 (-1)⟩, ⟨11, ⟨2, 0⟩, 7, Backstep.dir 0 1⟩, ⟨8, ⟨0, 2⟩, 7, Backstep.dir 1 (-1)⟩, ⟨7, ⟨2, 0⟩, 7, Backstep.dir 1 0⟩, ⟨6, ⟨0, 2⟩, 7, Backstep.dir 1 1⟩, ⟨12, ⟨0, 0⟩, 7, Backstep.dest⟩],
  [14, 10, 2, 18, 16, 8, 6, 17, 13, 11, 7, 12], [⟨⟨0, 4⟩, 7, 24⟩, ⟨⟨0, 4⟩, 7, 20⟩, ⟨⟨0, 4⟩, 7, 4⟩, ⟨⟨0, 4⟩, 7, 0⟩, ⟨⟨2, 2⟩, 7, 23⟩, ⟨⟨4, 0⟩, 7, 22⟩, ⟨⟨2, 2⟩, 7, 21⟩, ⟨⟨2, 2⟩, 7, 19⟩, ⟨⟨2, 2⟩, 7, 9⟩, ⟨⟨2, 2⟩, 7, 15⟩, ⟨⟨2, 2⟩, 7, 5⟩, ⟨⟨2, 2⟩, 7, 3⟩, ⟨⟨2, 2⟩, 7, 1⟩]⟩

/-- Intermediate state 13 of the c1 run. -/
def c1s13 : SState :=
  ⟨[⟨24, ⟨0, 4⟩, 7, Backstep.dir (-1) (-1)⟩, ⟨20, ⟨0, 4⟩, 7, Backstep.dir (-1) 1⟩, ⟨4, ⟨0, 4⟩, 7, Backstep.dir 1 (-1)⟩, ⟨0, ⟨0, 4⟩, 7, Backstep.dir 1 1⟩, ⟨23, ⟨2, 2⟩, 7, Backstep.dir (-1) (-1)⟩, ⟨22, ⟨4, 0⟩, 7, Backstep.dir (-1) 0⟩, ⟨21, ⟨2, 2⟩, 7, Backstep.dir (-1) 1⟩, ⟨19, ⟨2, 2⟩, 7, Backstep.dir (-1) (-1)⟩, ⟨14, ⟨4, 0⟩, 7, Backstep.dir 0 (-1)⟩, ⟨9, ⟨2, 2⟩, 7, Backstep.dir 1 (-1)⟩, ⟨15, ⟨2, 2⟩, 7, Backstep.dir (-1) 1⟩, ⟨10, ⟨4, 0⟩, 7, Backstep.dir 0 1⟩, ⟨5, ⟨2, 2⟩, 7, Backstep.dir 1 1⟩, ⟨3, ⟨2, 2⟩, 7, Backstep.dir 1 (-1)⟩, ⟨2, ⟨4, 0⟩, 7, Backstep.dir 1 0⟩, ⟨1, ⟨2, 2⟩, 7, Backstep.dir 1 1⟩, ⟨18, ⟨0, 2⟩, 7, Backstep.dir (-1) (-1)⟩, ⟨17, ⟨2, 0⟩, 7, Backstep.dir (-1) 0⟩, ⟨16, ⟨0, 2⟩, 7, Backstep.dir (-1) 1⟩, ⟨13, ⟨2, 0⟩, 7, Backstep.dir 0 (-1)⟩, ⟨11, ⟨2, 0⟩, 7, Backstep.dir 0 1⟩, ⟨8, ⟨0, 2⟩, 7, Backstep.dir 1 (-1)⟩, ⟨7, ⟨2, 0⟩, 7, Backstep.dir 1 0⟩, ⟨6, ⟨0, 2⟩, 7, Backstep.dir 1 1⟩, ⟨12, ⟨0, 0⟩, 7, Backstep.dest⟩],
  [22, 14, 10, 2, 18, 16, 8, 6, 17, 13, 11, 7, 12], [⟨⟨0, 4⟩, 7, 24⟩, ⟨⟨0, 4⟩, 7, 20⟩, ⟨⟨0, 4⟩, 7, 4⟩, ⟨⟨0, 4⟩, 7, 0⟩, ⟨⟨2, 2⟩, 7, 23⟩, ⟨⟨2, 2⟩, 7, 21⟩, ⟨⟨2, 2⟩, 7, 19⟩, ⟨⟨2, 2⟩, 7, 9⟩, ⟨⟨2, 2⟩, 7, 15⟩, ⟨⟨2, 2⟩, 7, 5⟩, ⟨⟨2, 2⟩, 7, 3⟩, ⟨⟨2, 2⟩, 7, 1⟩]⟩

/-- Intermediate state 14 of the c1 run. -/
def c1s14 : SState :=
  ⟨[⟨24, ⟨0, 4⟩, 7, Backstep.dir (-1) (-1)⟩, ⟨20, ⟨0, 4⟩, 7, Backstep.dir (-1) 1⟩, ⟨4, ⟨0, 4⟩, 7, Backstep.dir 1 (-1)⟩, ⟨0, ⟨0, 4⟩, 7, Backstep.dir 1 1⟩, ⟨23, ⟨2, 2⟩, 7, Backstep.dir (-1) (-1)⟩, ⟨22, ⟨4, 0⟩, 7, Backstep.dir (-1) 0⟩, ⟨21, ⟨2, 2⟩, 7, Backstep.dir (-1) 1⟩, ⟨19, ⟨2, 2⟩, 7, Backstep.dir (-1) (-1)⟩, ⟨14, ⟨4, 0⟩, 7, Backstep.dir 0 (-1)⟩, ⟨9, ⟨2, 2⟩, 7, Backstep.dir 1 (-1)⟩, ⟨15, ⟨2, 2⟩, 7, Backstep.dir (-1) 1⟩, ⟨10, ⟨4, 0⟩, 7, Backstep.dir 0 1⟩, ⟨5, ⟨2, 2⟩, 7, Backstep.dir 1 1⟩, ⟨3, ⟨2, 2⟩, 7, Backstep.dir 1 (-1)⟩, ⟨2, ⟨4, 0⟩, 7, Backstep.dir 1 0⟩, ⟨1, ⟨2, 2⟩, 7, Backstep.dir 1 1⟩, ⟨18, ⟨0, 2⟩, 7, Backstep.dir (-1) (-1)⟩, ⟨17, ⟨2, 0⟩, 7, Backstep.dir (-1) 0⟩, ⟨16, ⟨0, 2⟩, 7, Backstep.dir (-1) 1⟩, ⟨13, ⟨2, 0⟩, 7, Backstep.dir 0 (-1)⟩, ⟨11, ⟨2, 0⟩, 7, Backstep.dir 0 1⟩, ⟨8, ⟨0, 2⟩, 7, Backstep.dir 1 (-1)⟩, ⟨7, ⟨2, 0⟩, 7, Backstep.dir 1 0⟩, ⟨6, ⟨0, 2⟩, 7, Backstep.dir 1 1⟩, ⟨12, ⟨0, 0⟩, 7, Backstep.dest⟩],
  [1, 22, 14, 10, 2, 18, 16, 8, 6, 17, 13, 11, 7, 12], [⟨⟨0, 4⟩, 7, 24⟩, ⟨⟨0, 4⟩, 7, 20⟩, ⟨⟨0, 4⟩, 7, 4⟩, ⟨⟨0, 4⟩, 7, 0⟩, ⟨⟨2, 2⟩, 7, 23⟩, ⟨⟨2, 2⟩, 7, 21⟩, ⟨⟨2, 2⟩, 7, 19⟩, ⟨⟨2, 2⟩, 7, 9⟩, ⟨⟨2, 2⟩, 7, 15⟩, ⟨⟨2, 2⟩, 7, 5⟩, ⟨⟨2, 2⟩, 7, 3⟩]⟩

/-- Intermediate state 15 of the c1 run. -/
def c1s15 : SState :=
  ⟨[⟨24, ⟨0, 4⟩, 7, Backstep.dir (-1) (-1)⟩, ⟨20, ⟨0, 4⟩, 7, Backstep.dir (-1) 1⟩, ⟨4, ⟨0, 4⟩, 7, Backstep.dir 1 (-1)⟩, ⟨0, ⟨0, 4⟩, 7, Backstep.dir 1 1⟩, ⟨23, ⟨2, 2⟩, 7, Backstep.dir (-1) (-1)⟩, ⟨22, ⟨4, 0⟩, 7, Backstep.dir (-1) 0⟩, ⟨21, ⟨2, 2⟩, 7, Backstep.dir (-1) 1⟩, ⟨19, ⟨2, 2⟩, 7, Backstep.dir (-1) (-1)⟩, ⟨14, ⟨4, 0⟩, 7, Backstep.dir 0 (-1)⟩, ⟨9, ⟨2, 2⟩, 7, Backstep.dir 1 (-1)⟩, ⟨15, ⟨2, 2⟩, 7, Backstep.dir (-1) 1⟩, ⟨10, ⟨4, 0⟩, 7, Backstep.dir 0 1⟩, ⟨5, ⟨2, 2⟩, 7, Backstep.dir 1 1⟩, ⟨3, ⟨2, 2⟩, 7, Backstep.dir 1 (-1)⟩, ⟨2, ⟨4, 0⟩, 7, Backstep.dir 1 0⟩, ⟨1, ⟨2, 2⟩, 7, Backstep.dir 1 1⟩, ⟨18, ⟨0, 2⟩, 7, Backstep.dir (-1) (-1)⟩, ⟨17, ⟨2, 0⟩, 7, Backstep.dir (-1) 0⟩, ⟨16, ⟨0, 2⟩, 7, Backstep.dir (-1) 1⟩, ⟨13, ⟨2, 0⟩, 7, Backstep.dir 0 (-1)⟩, ⟨11, ⟨2, 0⟩, 7, Backstep.dir 0 1⟩, ⟨8, ⟨0, 2⟩, 7, Backstep.dir 1 (-1)⟩, ⟨7, ⟨2, 0⟩, 7, Backstep.dir 1 0⟩, ⟨6, ⟨0, 2⟩, 7, Backstep.dir 1 1⟩, ⟨12, ⟨0, 0⟩, 7, Backstep.dest⟩],
  [3, 1, 22, 14, 10, 2, 18, 16, 8, 6, 17, 13, 11, 7, 12], [⟨⟨0, 4⟩, 7, 24⟩, ⟨⟨0, 4⟩, 7, 20⟩, ⟨⟨0, 4⟩, 7, 4⟩, ⟨⟨0, 4⟩, 7, 0⟩, ⟨⟨2, 2⟩, 7, 23⟩, ⟨⟨2, 2⟩, 7, 21⟩, ⟨⟨2, 2⟩, 7, 19⟩, ⟨⟨2, 2⟩, 7, 9⟩, ⟨⟨2, 2⟩, 7, 15⟩, ⟨⟨2, 2⟩, 7, 5⟩]⟩

/-- Intermediate state 16 of the c1 run. -/
def c1s16 : SState :=
  ⟨[⟨24, ⟨0, 4⟩, 7, Backstep.dir (-1) (-1)⟩, ⟨20, ⟨0, 4⟩, 7, Backstep.dir (-1) 1⟩, ⟨4, ⟨0, 4⟩, 7, Backstep.dir 1 (-1)⟩, ⟨0, ⟨0, 4⟩, 7, Backstep.dir 1 1⟩, ⟨23, ⟨2, 2⟩, 7, Backstep.dir (-1) (-1)⟩, ⟨22, ⟨4, 0⟩, 7, Backstep.dir (-1) 0⟩, ⟨21, ⟨2, 2⟩, 7, Backstep.dir (-1) 1⟩, ⟨19, ⟨2, 2⟩, 7, Backstep.dir (-1) (-1)⟩, ⟨14, ⟨4, 0⟩, 7, Backstep.dir 0 (-1)⟩, ⟨9, ⟨2, 2⟩, 7, Backstep.dir 1 (-1)⟩, ⟨15, ⟨2, 2⟩, 7, Backstep.dir (-1) 1⟩, ⟨10, ⟨4, 0⟩, 7, Backstep.dir 0 1⟩, ⟨5, ⟨2, 2⟩, 7, Backstep.dir 1 1⟩, ⟨3, ⟨2, 2⟩, 7, Backstep.dir 1 (-1)⟩, ⟨2, ⟨4, 0⟩, 7, Backstep.dir 1 0⟩, ⟨1, ⟨2, 2⟩, 7, Backstep.dir 1 1⟩, ⟨18, ⟨0, 2⟩, 7, Backstep.dir (-1) (-1)⟩, ⟨17, ⟨2, 0⟩, 7, Backstep.dir (-1) 0⟩, ⟨16, ⟨0, 2⟩, 7, Backstep.dir (-1) 1⟩, ⟨13, ⟨2, 0⟩, 7, Backstep.dir 0 (-1)⟩, ⟨11, ⟨2, 0⟩, 7, Backstep.dir 0 1⟩, ⟨8, ⟨0, 2⟩, 7, Backstep.dir 1 (-1)⟩, ⟨7, ⟨2, 0⟩, 7, Backstep.dir 1 0⟩, ⟨6, ⟨0, 2⟩, 7, Backstep.dir 1 1⟩, ⟨12, ⟨0, 0⟩, 7, Backstep.dest⟩],
  [5, 3, 1, 22, 14, 10, 2, 18, 16, 8, 6, 17, 13, 11, 7, 12], [⟨⟨0, 4⟩, 7, 24⟩, ⟨⟨0, 4⟩, 7, 20⟩, ⟨⟨0, 4⟩, 7, 4⟩, ⟨⟨0, 4⟩, 7, 0⟩, ⟨⟨2, 2⟩, 7, 23⟩, ⟨⟨2, 2⟩, 7, 21⟩, ⟨⟨2, 2⟩, 7, 19⟩, ⟨⟨2, 2⟩, 7, 9⟩, ⟨⟨2, 2⟩, 7, 15⟩]⟩

/-- Intermediate state 17 of the c1 run. -/
def c1s17 : SState :=
  ⟨[⟨24, ⟨0, 4⟩, 7, Backstep.dir (-1) (-1)⟩, ⟨20, ⟨0, 4⟩, 7, Backstep.dir (-1) 1⟩, ⟨4, ⟨0, 4⟩, 7, Backstep.dir 1 (-1)⟩, ⟨0, ⟨0, 4⟩, 7, Backstep.dir 1 1⟩, ⟨23, ⟨2, 2⟩, 7, Backstep.dir (-1) (-1)⟩, ⟨22, ⟨4, 0⟩, 7, Backstep.dir (-1) 0⟩, ⟨21, ⟨2, 2⟩, 7, Backstep.dir (-1) 1⟩, ⟨19, ⟨2, 2⟩, 7, Backstep.dir (-1) (-1)⟩, ⟨14, ⟨4, 0⟩, 7, Backstep.dir 0 (-1)⟩, ⟨9, ⟨2, 2⟩, 7, Backstep.dir 1 (-1)⟩, ⟨15, ⟨2, 2⟩, 7, Backstep.dir (-1) 1⟩, ⟨10, ⟨4, 0⟩, 7, Backstep.dir 0 1⟩, ⟨5, ⟨2, 2⟩, 7, Backstep.dir 1 1⟩, ⟨3, ⟨2, 2⟩, 7, Backstep.dir 1 (-1)⟩, ⟨2, ⟨4, 0⟩, 7, Backstep.dir 1 0⟩, ⟨1, ⟨2, 2⟩, 7, Backstep.dir 1 1⟩, ⟨18, ⟨0, 2⟩, 7, Backstep.dir (-1) (-1)⟩, ⟨17, ⟨2, 0⟩, 7, Backstep.dir (-1) 0⟩, ⟨16, ⟨0, 2⟩, 7, Backstep.dir (-1) 1⟩, ⟨13, ⟨2, 0⟩, 7, Backstep.dir 0 (-1)⟩, ⟨11, ⟨2, 0⟩, 7, Backstep.dir 0 1⟩, ⟨8, ⟨0, 2⟩, 7, Backstep.dir 1 (-1)⟩, ⟨7, ⟨2, 0⟩, 7, Backstep.dir 1 0⟩, ⟨6, ⟨0, 2⟩, 7, Backstep.dir 1 1⟩, ⟨12, ⟨0, 0⟩, 7, Backstep.dest⟩],
  [9, 5, 3, 1, 22, 14, 10, 2, 18, 16, 8, 6, 17, 13, 11, 7, 12], [⟨⟨0, 4⟩, 7, 24⟩, ⟨⟨0, 4⟩, 7, 20⟩, ⟨⟨0, 4⟩, 7, 4⟩, ⟨⟨0, 4⟩, 7, 0⟩, ⟨⟨2, 2⟩, 7, 23⟩, ⟨⟨2, 2⟩, 7, 21⟩, ⟨⟨2, 2⟩, 7, 19⟩, ⟨⟨2, 2⟩, 7, 15⟩]⟩

/-- Intermediate state 18 of the c1 run. -/
def c1s18 : SState :=
  ⟨[⟨24, ⟨0, 4⟩, 7, Backstep.dir (-1) (-1)⟩, ⟨20, ⟨0, 4⟩, 7, Backstep.dir (-1) 1⟩, ⟨4, ⟨0, 4⟩, 7, Backstep.dir 1 (-1)⟩, ⟨0, ⟨0, 4⟩, 7, Backstep.dir 1 1⟩, ⟨23, ⟨2, 2⟩, 7, Backstep.dir (-1) (-1)⟩, ⟨22, ⟨4, 0⟩, 7, Backstep.dir (-1) 0⟩, ⟨21, ⟨2, 2⟩, 7, Backstep.dir (-1) 1⟩, ⟨19, ⟨2, 2⟩, 7, Backstep.dir (-1) (-1)⟩, ⟨14, ⟨4, 0⟩, 7, Backstep.dir 0 (-1)⟩, ⟨9, ⟨2, 2⟩, 7, Backstep.dir 1 (-1)⟩, ⟨15, ⟨2, 2⟩, 7, Backstep.dir (-1) 1⟩, ⟨10, ⟨4, 0⟩, 7, Backstep.dir 0 1⟩, ⟨5, ⟨2, 2⟩, 7, Backstep.dir 1 1⟩, ⟨3, ⟨2, 2⟩, 7, Backstep.dir 1 (-1)⟩, ⟨2, ⟨4, 0⟩, 7, Backstep.dir 1 0⟩, ⟨1, ⟨2, 2⟩, 7, Backstep.dir 1 1⟩, ⟨18, ⟨0, 2⟩, 7, Backstep.dir (-1) (-1)⟩, ⟨17, ⟨2, 0⟩, 7, Backstep.dir (-1) 0⟩, ⟨16, ⟨0, 2⟩, 7, Backstep.dir (-1) 1⟩, ⟨13, ⟨2, 0⟩, 7, Backstep.dir 0 (-1)⟩, ⟨11, ⟨2, 0⟩, 7, Backstep.dir 0 1⟩, ⟨8, ⟨0, 2⟩, 7, Backstep.dir 1 (-1)⟩, ⟨7, ⟨2, 0⟩, 7, Backstep.dir 1 0⟩, ⟨6, ⟨0, 2⟩, 7, Backstep.dir 1 1⟩, ⟨12, ⟨0, 0⟩, 7, Backstep.dest⟩],
  [15, 9, 5, 3, 1, 22, 14, 10, 2, 18, 16, 8, 6, 17, 13, 11, 7, 12], [⟨⟨0, 4⟩, 7, 24⟩, ⟨⟨0, 4⟩, 7, 20⟩, ⟨⟨0, 4⟩, 7, 4⟩, ⟨⟨0, 4⟩, 7, 0⟩, ⟨⟨2, 2⟩, 7, 23⟩, ⟨⟨2, 2⟩, 7, 21⟩, ⟨⟨2, 2⟩, 7, 19⟩]⟩

/-- Intermediate state 19 of the c1 run. -/
def c1s19 : SState :=
  ⟨[⟨24, ⟨0, 4⟩, 7, Backstep.dir (-1) (-1)⟩, ⟨20, ⟨0, 4⟩, 7, Backstep.dir (-1) 1⟩, ⟨4, ⟨0, 4⟩, 7, Backstep.dir 1 (-1)⟩, ⟨0, ⟨0, 4⟩, 7, Backstep.dir 1 1⟩, ⟨23, ⟨2, 2⟩, 7, Backstep.dir (-1) (-1)⟩, ⟨22, ⟨4, 0⟩, 7, Backstep.dir (-1) 0⟩, ⟨21, ⟨2, 2⟩, 7, Backstep.dir (-1) 1⟩, ⟨19, ⟨2, 2⟩, 7, Backstep.dir (-1) (-1)⟩, ⟨14, ⟨4, 0⟩, 7, Backstep.dir 0 (-1)⟩, ⟨9, ⟨2, 2⟩, 7, Backstep.dir 1 (-1)⟩, ⟨15, ⟨2, 2⟩, 7, Backstep.dir (-1) 1⟩, ⟨10, ⟨4, 0⟩, 7, Backstep.dir 0 1⟩, ⟨5, ⟨2, 2⟩, 7, Backstep.dir 1 1⟩, ⟨3, ⟨2, 2⟩, 7, Backstep.dir 1 (-1)⟩, ⟨2, ⟨4, 0⟩, 7, Backstep.dir 1 0⟩, ⟨1, ⟨2, 2⟩, 7, Backstep.dir 1 1⟩, ⟨18, ⟨0, 2⟩, 7, Backstep.dir (-1) (-1)⟩, ⟨17, ⟨2, 0⟩, 7, Backstep.dir (-1) 0⟩, ⟨16, ⟨0, 2⟩, 7, Backstep.dir (-1) 1⟩, ⟨13, ⟨2, 0⟩, 7, Backstep.dir 0 (-1)⟩, ⟨11, ⟨2, 0⟩, 7, Backstep.dir 0 1⟩, ⟨8, ⟨0, 2⟩, 7, Backstep.dir 1 (-1)⟩, ⟨7, ⟨2, 0⟩, 7, Backstep.dir 1 0⟩, ⟨6, ⟨0, 2⟩, 7, Backstep.dir 1 1⟩, ⟨12, ⟨0, 0⟩, 7, Backstep.dest⟩],
  [19, 15, 9, 5, 3, 1, 22, 14, 10, 2, 18, 16, 8, 6, 17, 13, 11, 7, 12], [⟨⟨0, 4⟩, 7, 24⟩, ⟨⟨0, 4⟩, 7, 20⟩, ⟨⟨0, 4⟩, 7, 4⟩, ⟨⟨0, 4⟩, 7, 0⟩, ⟨⟨2, 2⟩, 7, 23⟩, ⟨⟨2, 2⟩, 7, 21⟩]⟩

/-- Intermediate state 20 of the c1 run. -/
def c1s20 : SState :=
  ⟨[⟨24, ⟨0, 4⟩, 7, Backstep.dir (-1) (-1)⟩, ⟨20, ⟨0, 4⟩, 7, Backstep.dir (-1) 1⟩, ⟨4, ⟨0, 4⟩, 7, Backstep.dir 1 (-1)⟩, ⟨0, ⟨0, 4⟩, 7, Backstep.dir 1 1⟩, ⟨23, ⟨2, 2⟩, 7, Backstep.dir (-1) (-1)⟩, ⟨22, ⟨4, 0⟩, 7, Backstep.dir (-1) 0⟩, ⟨21, ⟨2, 2⟩, 7, Backstep.dir (-1) 1⟩, ⟨19, ⟨2, 2⟩, 7, Backstep.dir (-1) (-1)⟩, ⟨14, ⟨4, 0⟩, 7, Backstep.dir 0 (-1)⟩, ⟨9, ⟨2, 2⟩, 7, Backstep.dir 1 (-1)⟩, ⟨15, ⟨2, 2⟩, 7, Backstep.dir (-1) 1⟩, ⟨10, ⟨4, 0⟩, 7, Backstep.dir 0 1⟩, ⟨5, ⟨2, 2⟩, 7, Backstep.dir 1 1⟩, ⟨3, ⟨2, 2⟩, 7, Backstep.dir 1 (-1)⟩, ⟨2, ⟨4, 0⟩, 7, Backstep.dir 1 0⟩, ⟨1, ⟨2, 2⟩, 7, Backstep.dir 1 1⟩, ⟨18, ⟨0, 2⟩, 7, Backstep.dir (-1) (-1)⟩, ⟨17, ⟨2, 0⟩, 7, Backstep.dir (-1) 0⟩, ⟨16, ⟨0, 2⟩, 7, Backstep.dir (-1) 1⟩, ⟨13, ⟨2, 0⟩, 7, Backstep.dir 0 (-1)⟩, ⟨11, ⟨2, 0⟩, 7, Backstep.dir 0 1⟩, ⟨8, ⟨0, 2⟩, 7, Backstep.dir 1 (-1)⟩, ⟨7, ⟨2, 0⟩, 7, Backstep.dir 1 0⟩, ⟨6, ⟨0, 2⟩, 7, Backstep.dir 1 1⟩, ⟨12, ⟨0, 0⟩, 7, Backstep.dest⟩],
  [21, 19, 15, 9, 5, 3, 1, 22, 14, 10, 2, 18, 16, 8, 6, 17, 13, 11, 7, 12], [⟨⟨0, 4⟩, 7, 24⟩, ⟨⟨0, 4⟩, 7, 20⟩, ⟨⟨0, 4⟩, 7, 4⟩, ⟨⟨0, 4⟩, 7, 0⟩, ⟨⟨2, 2⟩, 7, 23⟩]⟩

/-- Intermediate state 21 of the c1 run. -/
def c1s21 : SState :=
  ⟨[⟨24, ⟨0, 4⟩, 7, Backstep.dir (-1) (-1)⟩, ⟨20, ⟨0, 4⟩, 7, Backstep.dir (-1) 1⟩, ⟨4, ⟨0, 4⟩, 7, Backstep.dir 1 (-1)⟩, ⟨0, ⟨0, 4⟩, 7, Backstep.dir 1 1⟩, ⟨23, ⟨2, 2⟩, 7, Backstep.dir (-1) (-1)⟩, ⟨22, ⟨4, 0⟩, 7, Backstep.dir (-1) 0⟩, ⟨21, ⟨2, 2⟩, 7, Backstep.dir (-1) 1⟩, ⟨19, ⟨2, 2⟩, 7, Backstep.dir (-1) (-1)⟩, ⟨14, ⟨4, 0⟩, 7, Backstep.dir 0 (-1)⟩, ⟨9, ⟨2, 2⟩, 7, Backstep.dir 1 (-1)⟩, ⟨15, ⟨2, 2⟩, 7, Backstep.dir (-1) 1⟩, ⟨10, ⟨4, 0⟩, 7, Backstep.dir 0 1⟩, ⟨5, ⟨2, 2⟩, 7, Backstep.dir 1 1⟩, ⟨3, ⟨2, 2⟩, 7, Backstep.dir 1 (-1)⟩, ⟨2, ⟨4, 0⟩, 7, Backstep.dir 1 0⟩, ⟨1, ⟨2, 2⟩, 7, Backstep.dir 1 1⟩, ⟨18, ⟨0, 2⟩, 7, Backstep.dir (-1) (-1)⟩, ⟨17, ⟨2, 0⟩, 7, Backstep.dir (-1) 0⟩, ⟨16, ⟨0, 2⟩, 7, Backstep.dir (-1) 1⟩, ⟨13, ⟨2, 0⟩, 7, Backstep.dir 0 (-1)⟩, ⟨11, ⟨2, 0⟩, 7, Backstep.dir 0 1⟩, ⟨8, ⟨0, 2⟩, 7, Backstep.dir 1 (-1)⟩, ⟨7, ⟨2, 0⟩, 7, Backstep.dir 1 0⟩, ⟨6, ⟨0, 2⟩, 7, Backstep.dir 1 1⟩, ⟨12, ⟨0, 0⟩, 7, Backstep.dest⟩],
  [23, 21, 19, 15, 9, 5, 3, 1, 22, 14, 10, 2, 18, 16, 8, 6, 17, 13, 11, 7, 12], [⟨⟨0, 4⟩, 7, 24⟩, ⟨⟨0, 4⟩, 7, 20⟩, ⟨⟨0, 4⟩, 7, 4⟩, ⟨⟨0, 4⟩, 7, 0⟩]⟩

/-- Intermediate state 22 of the c1 run. -/
def c1s22 : SState :=
  ⟨[⟨24, ⟨0, 4⟩, 7, Backstep.dir (-1) (-1)⟩, ⟨20, ⟨0, 4⟩, 7, Backstep.dir (-1) 1⟩, ⟨4, ⟨0, 4⟩, 7, Backstep.dir 1 (-1)⟩, ⟨0, ⟨0, 4⟩, 7, Backstep.dir 1 1⟩, ⟨23, ⟨2, 2⟩, 7, Backstep.dir (-1) (-1)⟩, ⟨22, ⟨4, 0⟩, 7, Backstep.dir (-1) 0⟩, ⟨21, ⟨2, 2⟩, 7, Backstep.dir (-1) 1⟩, ⟨19, ⟨2, 2⟩, 7, Backstep.dir (-1) (-1)⟩, ⟨14, ⟨4, 0⟩, 7, Backstep.dir 0 (-1)⟩, ⟨9, ⟨2, 2⟩, 7, Backstep.dir 1 (-1)⟩, ⟨15, ⟨2, 2⟩, 7, Backstep.dir (-1) 1⟩, ⟨10, ⟨4, 0⟩, 7, Backstep.dir 0 1⟩, ⟨5, ⟨2, 2⟩, 7, Backstep.dir 1 1⟩, ⟨3, ⟨2, 2⟩, 7, Backstep.dir 1 (-1)⟩, ⟨2, ⟨4, 0⟩, 7, Backstep.dir 1 0⟩, ⟨1, ⟨2, 2⟩, 7, Backstep.dir 1 1⟩, ⟨18, ⟨0, 2⟩, 7, Backstep.dir (-1) (-1)⟩, ⟨17, ⟨2, 0⟩, 7, Backstep.dir (-1) 0⟩, ⟨16, ⟨0, 2⟩, 7, Backstep.dir (-1) 1⟩, ⟨13, ⟨2, 0⟩, 7, Backstep.dir 0 (-1)⟩, ⟨11, ⟨2, 0⟩, 7, Backstep.dir 0 1⟩, ⟨8, ⟨0, 2⟩, 7, Backstep.dir 1 (-1)⟩, ⟨7, ⟨2, 0⟩, 7, Backstep.dir 1 0⟩, ⟨6, ⟨0, 2⟩, 7, Backstep.dir 1 1⟩, ⟨12, ⟨0, 0⟩, 7, Backstep.dest⟩],
  [0, 23, 21, 19, 15, 9, 5, 3, 1, 22, 14, 10, 2, 18, 16, 8, 6, 17, 13, 11, 7, 12], [⟨⟨0, 4⟩, 7, 24⟩, ⟨⟨0, 4⟩, 7, 20⟩, ⟨⟨0, 4⟩, 7, 4⟩]⟩

/-- Intermediate state 23 of the c1 run. -/
def c1s23 : SState :=
  ⟨[⟨24, ⟨0, 4⟩, 7, Backstep.dir (-1) (-1)⟩, ⟨20, ⟨0, 4⟩, 7, Backstep.dir (-1) 1⟩, ⟨4, ⟨0, 4⟩, 7, Backstep.dir 1 (-1)⟩, ⟨0, ⟨0, 4⟩, 7, Backstep.dir 1 1⟩, ⟨23, ⟨2, 2⟩, 7, Backstep.dir (-1) (-1)⟩, ⟨22, ⟨4, 0⟩, 7, Backstep.dir (-1) 0⟩, ⟨21, ⟨2, 2⟩, 7, Backstep.dir (-1) 1⟩, ⟨19, ⟨2, 2⟩, 7, Backstep.dir (-1) (-1)⟩, ⟨14, ⟨4, 0⟩, 7, Backstep.dir 0 (-1)⟩, ⟨9, ⟨2, 2⟩, 7, Backstep.dir 1 (-1)⟩, ⟨15, ⟨2, 2⟩, 7, Backstep.dir (-1) 1⟩, ⟨10, ⟨4, 0⟩, 7, Backstep.dir 0 1⟩, ⟨5, ⟨2, 2⟩, 7, Backstep.dir 1 1⟩, ⟨3, ⟨2, 2⟩, 7, Backstep.dir 1 (-1)⟩, ⟨2, ⟨4, 0⟩, 7, Backstep.dir 1 0⟩, ⟨1, ⟨2, 2⟩, 7, Backstep.dir 1 1⟩, ⟨18, ⟨0, 2⟩, 7, Backstep.dir (-1) (-1)⟩, ⟨17, ⟨2, 0⟩, 7, Backstep.dir (-1) 0⟩, ⟨16, ⟨0, 2⟩, 7, Backstep.dir (-1) 1⟩, ⟨13, ⟨2, 0⟩, 7, Backstep.dir 0 (-1)⟩, ⟨11, ⟨2, 0⟩, 7, Backstep.dir 0 1⟩, ⟨8, ⟨0, 2⟩, 7, Backstep.dir 1 (-1)⟩, ⟨7, ⟨2, 0⟩, 7, Backstep.dir 1 0⟩, ⟨6, ⟨0, 2⟩, 7, Backstep.dir 1 1⟩, ⟨12, ⟨0, 0⟩, 7, Backstep.dest⟩],
  [4, 0, 23, 21, 19, 15, 9, 5, 3, 1, 22, 14, 10, 2, 18, 16, 8, 6, 17, 13, 11, 7, 12], [⟨⟨0, 4⟩, 7, 24⟩, ⟨⟨0, 4⟩, 7, 20⟩]⟩

/-- Intermediate state 24 of the c1 run. -/
def c1s24 : SState :=
  ⟨[⟨24, ⟨0, 4⟩, 7, Backstep.dir (-1) (-1)⟩, ⟨20, ⟨0, 4⟩, 7, Backstep.dir (-1) 1⟩, ⟨4, ⟨0, 4⟩, 7, Backstep.dir 1 (-1)⟩, ⟨0, ⟨0, 4⟩, 7, Backstep.dir 1 1⟩, ⟨23, ⟨2, 2⟩, 7, Backstep.dir (-1) (-1)⟩, ⟨22, ⟨4, 0⟩, 7, Backstep.dir (-1) 0⟩, ⟨21, ⟨2, 2⟩, 7, Backstep.dir (-1) 1⟩, ⟨19, ⟨2, 2⟩, 7, Backstep.dir (-1) (-1)⟩, ⟨14, ⟨4, 0⟩, 7, Backstep.dir 0 (-1)⟩, ⟨9, ⟨2, 2⟩, 7, Backstep.dir 1 (-1)⟩, ⟨15, ⟨2, 2⟩, 7, Backstep.dir (-1) 1⟩, ⟨10, ⟨4, 0⟩, 7, Backstep.dir 0 1⟩, ⟨5, ⟨2, 2⟩, 7, Backstep.dir 1 1⟩, ⟨3, ⟨2, 2⟩, 7, Backstep.dir 1 (-1)⟩, ⟨2, ⟨4, 0⟩, 7, Backstep.dir 1 0⟩, ⟨1, ⟨2, 2⟩, 7, Backstep.dir 1 1⟩, ⟨18, ⟨0, 2⟩, 7, Backstep.dir (-1) (-1)⟩, ⟨17, ⟨2, 0⟩, 7, Backstep.dir (-1) 0⟩, ⟨16, ⟨0, 2⟩, 7, Backstep.dir (-1) 1⟩, ⟨13, ⟨2, 0⟩, 7, Backstep.dir 0 (-1)⟩, ⟨11, ⟨2, 0⟩, 7, Backstep.dir 0 1⟩, ⟨8, ⟨0, 2⟩, 7, Backstep.dir 1 (-1)⟩, ⟨7, ⟨2, 0⟩, 7, Backstep.dir 1 0⟩, ⟨6, ⟨0, 2⟩, 7, Backstep.dir 1 1⟩, ⟨12, ⟨0, 0⟩, 7, Backstep.dest⟩],
  [20, 4, 0, 23, 21, 19, 15, 9, 5, 3, 1, 22, 14, 10, 2, 18, 16, 8, 6, 17, 13, 11, 7, 12], [⟨⟨0, 4⟩, 7, 24⟩]⟩

/-- Intermediate state 25 of the c1 run. -/
def c1s25 : SState :=
  ⟨[⟨24, ⟨0, 4⟩, 7, Backstep.dir (-1) (-1)⟩, ⟨20, ⟨0, 4⟩, 7, Backstep.dir (-1) 1⟩, ⟨4, ⟨0, 4⟩, 7, Backstep.dir 1 (-1)⟩, ⟨0, ⟨0, 4⟩, 7, Backstep.dir 1 1⟩, ⟨23, ⟨2, 2⟩, 7, Backstep.dir (-1) (-1)⟩, ⟨22, ⟨4, 0⟩, 7, Backstep.dir (-1) 0⟩, ⟨21, ⟨2, 2⟩, 7, Backstep.dir (-1) 1⟩, ⟨19, ⟨2, 2⟩, 7, Backstep.dir (-1) (-1)⟩, ⟨14, ⟨4, 0⟩, 7, Backstep.dir 0 (-1)⟩, ⟨9, ⟨2, 2⟩, 7, Backstep.dir 1 (-1)⟩, ⟨15, ⟨2, 2⟩, 7, Backstep.dir (-1) 1⟩, ⟨10, ⟨4, 0⟩, 7, Backstep.dir 0 1⟩, ⟨5, ⟨2, 2⟩, 7, Backstep.dir 1 1⟩, ⟨3, ⟨2, 2⟩, 7, Backstep.dir 1 (-1)⟩, ⟨2, ⟨4, 0⟩, 7, Backstep.dir 1 0⟩, ⟨1, ⟨2, 2⟩, 7, Backstep.dir 1 1⟩, ⟨18, ⟨0, 2⟩, 7, Backstep.dir (-1) (-1)⟩, ⟨17, ⟨2, 0⟩, 7, Backstep.dir (-1) 0⟩, ⟨16, ⟨0, 2⟩, 7, Backstep.dir (-1) 1⟩, ⟨13, ⟨2, 0⟩, 7, Backstep.dir 0 (-1)⟩, ⟨11, ⟨2, 0⟩, 7, Backstep.dir 0 1⟩, ⟨8, ⟨0, 2⟩, 7, Backstep.dir 1 (-1)⟩, ⟨7, ⟨2, 0⟩, 7, Backstep.dir 1 0⟩, ⟨6, ⟨0, 2⟩, 7, Backstep.dir 1 1⟩, ⟨12, ⟨0, 0⟩, 7, Backstep.dest⟩],
  [24, 20, 4, 0, 23, 21, 19, 15, 9, 5, 3, 1, 22, 14, 10, 2, 18, 16, 8, 6, 17, 13, 11, 7, 12], []⟩

/-- Iteration 0 of the c1 run. -/
theorem c1step0 : loopStep c1grid true c1s0 = c1s1 := by
  decide

/-- Iteration 1 of the c1 run. -/
theorem c1step1 : loopStep c1grid true c1s1 = c1s2 := by
  decide

/-- Iteration 2 of the c1 run. -/
theorem c1step2 : loopStep c1grid true c1s2 = c1s3 := by
  decide

/-- Iteration 3 of the c1 run. -/
theorem c1step3 : loopStep c1grid true c1s3 = c1s4 := by
  decide

/-- Iteration 4 of the c1 run. -/
theorem c1step4 : loopStep c1grid true c1s4 = c1s5 := by
  decide

/-- Iteration 5 of the c1 run. -/
theorem c1step5 : loopStep c1grid true c1s5 = c1s6 := by
  decide

/-- Iteration 6 of the c1 run. -/
theorem c1step6 : loopStep c1grid true c1s6 = c1s7 := by
  decide

/-- Iteration 7 of the c1 run. -/
theorem c1step7 : loopStep c1grid true c1s7 = c1s8 := by
  decide

/-- Iteration 8 of the c1 run. -/
theorem c1step8 : loopStep c1grid true c1s8 = c1s9 := by
  decide

/-- Iteration 9 of the c1 run. -/
theorem c1step9 : loopStep c1grid true c1s9 = c1s10 := by
  decide

/-- Iteration 10 of the c1 run. -/
theorem c1step10 : loopStep c1grid true c1s10 = c1s11 := by
  decide

/-- Iteration 11 of the c1 run. -/
theorem c1step11 : loopStep c1grid true c1s11 = c1s12 := by
  decide

/-- Iteration 12 of the c1 run. -/
theorem c1step12 : loopStep c1grid true c1s12 = c1s13 := by
  decide

/-- Iteration 13 of the c1 run. -/
theorem c1step13 : loopStep c1grid true c1s13 = c1s14 := by
  decide

/-- Iteration 14 of the c1 run. -/
theorem c1step14 : loopStep c1grid true c1s14 = c1s15 := by
  decide

/-- Iteration 15 of the c1 run. -/
theorem c1step15 : loopStep c1grid true c1s15 = c1s16 := by
  decide

/-- Iteration 16 of the c1 run. -/
theorem c1step16 : loopStep c1grid true c1s16 = c1s17 := by
  decide

/-- Iteration 17 of the c1 run. -/
theorem c1step17 : loopStep c1grid true c1s17 = c1s18 := by
  decide

/-- Iteration 18 of the c1 run. -/
theorem c1step18 : loopStep c1grid true c1s18 = c1s19 := by
  decide

/-- Iteration 19 of the c1 run. -/
theorem c1step19 : loopStep c1grid true c1s19 = c1s20 := by
  decide

/-- Iteration 20 of the c1 run. -/
theorem c1step20 : loopStep c1grid true c1s20 = c1s21 := by
  decide

/-- Iteration 21 of the c1 run. -/
theorem c1step21 : loopStep c1grid true c1s21 = c1s22 := by
  decide

/-- Iteration 22 of the c1 run. -/
theorem c1step22 : loopStep c1grid true c1s22 = c1s23 := by
  decide

/-- Iteration 23 of the c1 run. -/
theorem c1step23 : loopStep c1grid true c1s23 = c1s24 := by
  decide

/-- Iteration 24 of the c1 run. -/
theorem c1step24 : loopStep c1grid true c1s24 = c1s25 := by
  decide

/-- The c1 run settles to its final state. -/
theorem c1run : loop c1grid true 26 c1s0 = c1s25 := by
  rw [loop_succ_ne c1step0 rfl]
  rw [loop_succ_ne c1step1 rfl]
  rw [loop_succ_ne c1step2 rfl]
  rw [loop_succ_ne c1step3 rfl]
  rw [loop_succ_ne c1step4 rfl]
  rw [loop_succ_ne c1step5 rfl]
  rw [loop_succ_ne c1step6 rfl]
  rw [loop_succ_ne c1step7 rfl]
  rw [loop_succ_ne c1step8 rfl]
  rw [loop_succ_ne c1step9 rfl]
  rw [loop_succ_ne c1step10 rfl]
  rw [loop_succ_ne c1step11 rfl]
  rw [loop_succ_ne c1step12 rfl]
  rw [loop_succ_ne c1step13 rfl]
  rw [loop_succ_ne c1step14 rfl]
  rw [loop_succ_ne c1step15 rfl]
  rw [loop_succ_ne c1step16 rfl]
  rw [loop_succ_ne c1step17 rfl]
  rw [loop_succ_ne c1step18 rfl]
  rw [loop_succ_ne c1step19 rfl]
  rw [loop_succ_ne c1step20 rfl]
  rw [loop_succ_ne c1step21 rfl]
  rw [loop_succ_ne c1step22 rfl]
  rw [loop_succ_ne c1step23 rfl]
  rw [loop_succ_ne c1step24 rfl]
  exact loop_succ_nil rfl

/-- Seeding the concrete scenario yields its initial state. -/
theorem c1seed : seedState c1grid (seedList c1grid [⟨2, 2, 7⟩]) = c1s0 := by
  decide

/-- The concrete scenario's solver outcome. -/
theorem c1access : accessSolve c1grid true [⟨2, 2, 7⟩] =
    .ok ⟨c1s25.cost, c1s25.near, c1s25.back⟩ := by
  unfold accessSolve accessRun
  rw [if_neg (by decide)]
  have hfuel : c1grid.width * c1grid.height + 1 = 26 := by decide
  rw [hfuel, c1seed, c1run]

/-- C1: the solver's candidate cost for moving from a settled cell to a
neighbor equals the current accumulated cost plus the average of the two
cells' friction values, scaled by 1 for an orthogonal step and by √2 for
a diagonal step; and on the 5x5 grid of uniform friction 1 with the
single destination (2,2) under 8-connectivity, the accumulated-cost
raster is 0 at (2,2), 1 at its four orthogonal neighbors, √2 at its four
diagonal neighbors and 2·√2 at the corner (0,0).  (The exact cost ⟨a, b⟩
denotes (a + b·√2)/2: ⟨2,0⟩ = 1, ⟨0,2⟩ = √2, ⟨0,4⟩ = 2·√2.) -/
theorem C1_candidate_cost_and_uniform_grid :
    (∀ (cur : Q2) (fc fn : ℤ) (diag : Bool),
      (candidateCost cur fc fn diag).val =
        cur.val + (((fc : ℝ) + (fn : ℝ)) / 2) * (if diag then Real.sqrt 2 else 1)) ∧
    resCost (accessSolve c1grid true [⟨2, 2, 7⟩]) (2 * 5 + 2) = some ⟨0, 0⟩ ∧
    resCost (accessSolve c1grid true [⟨2, 2, 7⟩]) (1 * 5 + 2) = some ⟨2, 0⟩ ∧
    resCost (accessSolve c1grid true [⟨2, 2, 7⟩]) (3 * 5 + 2) = some ⟨2, 0⟩ ∧
    resCost (accessSolve c1grid true [⟨2, 2, 7⟩]) (2 * 5 + 1) = some ⟨2, 0⟩ ∧
    resCost (accessSolve c1grid true [⟨2, 2, 7⟩]) (2 * 5 + 3) = some ⟨2, 0⟩ ∧
    resCost (accessSolve c1grid true [⟨2, 2, 7⟩]) (1 * 5 + 1) = some ⟨0, 2⟩ ∧
    resCost (accessSolve c1grid true [⟨2, 2, 7⟩]) (1 * 5 + 3) = some ⟨0, 2⟩ ∧
    resCost (accessSolve c1grid true [⟨2, 2, 7⟩]) (3 * 5 + 1) = some ⟨0, 2⟩ ∧
    resCost (accessSolve c1grid true [⟨2, 2, 7⟩]) (3 * 5 + 3) = some ⟨0, 2⟩ ∧
    resCost (accessSolve c1grid true [⟨2, 2, 7⟩]) 0 = some ⟨0, 4⟩ ∧
    (Q2.val ⟨2, 0⟩ = 1 ∧ Q2.val ⟨0, 2⟩ = Real.sqrt 2 ∧
      Q2.val ⟨0, 4⟩ = 2 * Real.sqrt 2) := by
  refine ⟨Q2.val_candidateCost, ?_, ?_, ?_, ?_, ?_, ?_, ?_, ?_, ?_, ?_, ?_, ?_, ?_⟩
  · rw [c1access]; decide
  · rw [c1access]; decide
  · rw [c1access]; decide
  · rw [c1access]; decide
  · rw [c1access]; decide
  · rw [c1access]; decide
  · rw [c1access]; decide
  · rw [c1access]; decide
  · rw [c1access]; decide
  · rw [c1access]; decide
  · unfold Q2.val; push_cast; ring_nf
  · unfold Q2.val; push_cast; ring_nf
  · unfold Q2.val; push_cast; ring_nf


/-- A 1x5 grid with frictions [1, 3, 1, 1, 5]: cell (0,2) is reachable at
exactly equal accumulated cost 4 = ⟨8,0⟩ from a destination at each end,
but the cheaper-predecessor side relaxes it first. -/
def c4grid : FrictionGrid :=
  ⟨5, 1, fun r c =>
    if r = 0 then [(1 : ℤ), 3, 1, 1, 5].get? c else none⟩

/-- C4 (counterexample): with destinations id 2 at (0,0) and id 1 at
(0,4) on `c4grid`, cell (0,2) is reachable at exactly equal accumulated
cost ⟨8,0⟩ = 4 from each destination alone, yet the nearest-id output at
(0,2) is 2, not the lowest tied id 1: the claim's universal
lowest-id tie-break law fails on the solver. -/
theorem C4_counterexample_tie_not_lowest_id :
    resCost (accessSolve c4grid true [⟨0, 0, 2⟩]) 2 = some ⟨8, 0⟩ ∧
    resCost (accessSolve c4grid true [⟨0, 4, 1⟩]) 2 = some ⟨8, 0⟩ ∧
    resNear (accessSolve c4grid true [⟨0, 0, 2⟩, ⟨0, 4, 1⟩]) 2 = some 2 ∧
    (some 2 : Option Nat) ≠ some (min 2 1) := by
  refine ⟨by decide, by decide, by decide, by decide⟩

/-- The 1x5 uniform-friction grid of the symmetric two-destination
scenario. -/
def c4sym : FrictionGrid :=
  ⟨5, 1, fun r c => if r = 0 ∧ c < 5 then some 1 else none⟩

/-- C4 (amended): on exact cost ties the nearest-id is the id of the tied
destination whose expansion relaxes the cell first in the deterministic
pop order; in symmetric configurations — such as the spec's scenario of
two destinations at equal distance from a shared cell — this is the
lowest numeric id.  Concretely: destinations id 7 at (0,0) and id 3 at
(0,4) on a uniform 1x5 grid both reach cell (0,2) at accumulated cost
⟨4,0⟩ = 2, and its nearest-id is 3 = min 7 3. -/
theorem C4_amended_symmetric_tie_lowest_id :
    resCost (accessSolve c4sym true [⟨0, 0, 7⟩]) 2 = some ⟨4, 0⟩ ∧
    resCost (accessSolve c4sym true [⟨0, 4, 3⟩]) 2 = some ⟨4, 0⟩ ∧
    resNear (accessSolve c4sym true [⟨0, 0, 7⟩, ⟨0, 4, 3⟩]) 2 = some 3 ∧
    (3 : Nat) = min 7 3 := by
  refine ⟨by decide, by decide, by decide, by decide⟩

/-!
## Concrete instances for the general theorems
-/

/-- A 1x2 grid of uniform friction 1. -/
def miniGrid : FrictionGrid :=
  ⟨2, 1, fun r c => if r = 0 ∧ c < 2 then some 1 else none⟩

/-- The mini grid's friction surface is nonnegative. -/
theorem miniGrid_nonneg : NonnegFriction miniGrid := by
  intro r c f h
  change (if r = 0 ∧ c < 2 then some (1 : ℤ) else none) = some f at h
  split at h
  · injection h with h2
    omega
  · exact Option.noConfusion h

/-- Final state of the mini run (destination id 4 at (0,0)). -/
def miniSt : SState :=
  ⟨[⟨1, ⟨2, 0⟩, 4, Backstep.dir 0 (-1)⟩, ⟨0, ⟨0, 0⟩, 4, Backstep.dest⟩],
    [1, 0], []⟩

/-- The mini run completes in the final state. -/
theorem miniRun : accessRun miniGrid true [⟨0, 0, 4⟩] = some miniSt := by
  decide

/-- The mini run's solver outcome. -/
theorem miniAccess : accessSolve miniGrid true [⟨0, 0, 4⟩] =
    .ok ⟨miniSt.cost, miniSt.near, miniSt.back⟩ := by
  unfold accessSolve
  rw [miniRun]

/-- C3 at a concrete input: the destination cell of the mini run has
accumulated cost 0 and its own id. -/
theorem C3_witness :
    resCost (accessSolve miniGrid true [⟨0, 0, 4⟩]) 0 = some Q2.zero ∧
    resNear (accessSolve miniGrid true [⟨0, 0, 4⟩]) 0 = some 4 := by
  have h3 := C3_seed_cost_zero_own_id miniGrid_nonneg miniAccess
    ⟨0, 0, 4⟩ (by decide)
  rw [miniAccess]
  exact ⟨h3.1, h3.2⟩

/-- C5 at a concrete input: swapping the two destinations of the
symmetric scenario leaves the outputs byte-identical. -/
theorem C5_witness :
    accessSolve c4sym true [⟨0, 0, 7⟩, ⟨0, 4, 3⟩] =
      accessSolve c4sym true [⟨0, 4, 3⟩, ⟨0, 0, 7⟩] :=
  C5_deterministic_order_independent (List.Perm.swap _ _ _) (by decide)

/-- The speed table used by the C6 builder instance: no mapped
categories, default speed 2. -/
def c6table : SpeedTable := ⟨fun _ => none, fun _ => none, 2⟩

/-- C6 at concrete inputs: the builder's friction value 1/2 (pixel 1,
default speed 2) is strictly positive, and in the mini run the backlink
of cell 1 points to a settled predecessor of no greater cost. -/
theorem C6_witness :
    (0 : ℚ) < 1 / 2 ∧
    (∃ p qi qp, shiftCell miniGrid 1 0 (-1) = some p ∧
      resCost (accessSolve miniGrid true [⟨0, 0, 4⟩]) 1 = some qi ∧
      resCost (accessSolve miniGrid true [⟨0, 0, 4⟩]) p = some qp ∧
      qp.val ≤ qi.val) := by
  constructor
  · exact C6_positive_friction_monotone_cost.1 1 c6table 0 false none none
      (1 / 2) (by norm_num) (fun k v h => Option.noConfusion h)
      (fun k v h => Option.noConfusion h) (by norm_num [c6table]) rfl
  · have h6 := C6_positive_friction_monotone_cost.2 miniGrid true [⟨0, 0, 4⟩]
      ⟨miniSt.cost, miniSt.near, miniSt.back⟩ 1 0 (-1) miniGrid_nonneg
      miniAccess (by decide)
    rw [miniAccess]
    exact h6

/-- A 1x4 grid with frictions [1, impassable, 1, impassable]: cell (0,2)
is passable but fully enclosed by impassable cells. -/
def c7wgrid : FrictionGrid :=
  ⟨4, 1, fun r c => if r = 0 ∧ (c = 0 ∨ c = 2) then some 1 else none⟩

/-- The C7 grid's friction surface is nonnegative. -/
theorem c7wgrid_nonneg : NonnegFriction c7wgrid := by
  intro r c f h
  change (if r = 0 ∧ (c = 0 ∨ c = 2) then some (1 : ℤ) else none) = some f at h
  split at h
  · injection h with h2
    omega
  · exact Option.noConfusion h

/-- Final state of the C7 run (destination id 9 at (0,0)). -/
def c7wst : SState := ⟨[⟨0, ⟨0, 0⟩, 9, Backstep.dest⟩], [0], []⟩

/-- The C7 run completes in the final state. -/
theorem c7wrun : accessRun c7wgrid true [⟨0, 0, 9⟩] = some c7wst := by
  decide

/-- The C7 run's solver outcome. -/
theorem c7waccess : accessSolve c7wgrid true [⟨0, 0, 9⟩] =
    .ok ⟨c7wst.cost, c7wst.near, c7wst.back⟩ := by
  unfold accessSolve
  rw [c7wrun]

/-- C7 at a concrete input: the impassable cell 1, the never-settled
cells of the emptied-queue final state, and the enclosed cell 2 all carry
no data in the three outputs. -/
theorem C7_witness :
    (resCost (accessSolve c7wgrid true [⟨0, 0, 9⟩]) 1 = none ∧
      resNear (accessSolve c7wgrid true [⟨0, 0, 9⟩]) 1 = none ∧
      resBack (accessSolve c7wgrid true [⟨0, 0, 9⟩]) 1 = none) ∧
    (c7wst.cost 2 = none ∧ c7wst.near 2 = none ∧ c7wst.back 2 = none) ∧
    (resCost (accessSolve c7wgrid true [⟨0, 0, 9⟩]) 2 = none ∧
      resNear (accessSolve c7wgrid true [⟨0, 0, 9⟩]) 2 = none ∧
      resBack (accessSolve c7wgrid true [⟨0, 0, 9⟩]) 2 = none) := by
  refine ⟨?_, ?_, ?_⟩
  · have h7 := C7_impassable_unsettled_enclosed_nodata.1 c7wgrid true
      [⟨0, 0, 9⟩] ⟨c7wst.cost, c7wst.near, c7wst.back⟩ 1 c7wgrid_nonneg
      c7waccess (by decide)
    rw [c7waccess]
    exact h7
  · exact C7_impassable_unsettled_enclosed_nodata.2.1 c7wgrid true
      [⟨0, 0, 9⟩] c7wst 2 c7wgrid_nonneg c7wrun rfl (by decide)
  · have h7 := C7_impassable_unsettled_enclosed_nodata.2.2 c7wgrid true
      [⟨0, 0, 9⟩] ⟨c7wst.cost, c7wst.near, c7wst.back⟩ 2 c7wgrid_nonneg
      c7waccess (by decide) (by decide)
    rw [c7waccess]
    exact h7

/-- A 1x1 grid whose single cell is impassable. -/
def c8wgrid : FrictionGrid := ⟨1, 1, fun _ _ => none⟩

/-- C8 at a concrete input: an in-bounds but impassable destination is
excluded from the seed set, and since it was the only one, the run fails
with the empty-destination-set error. -/
theorem C8_witness :
    accessSolve c8wgrid true [⟨0, 0, 1⟩] = .error .emptyDestinationSet ∧
    (⟨0, 0, 1⟩ : Dest) ∉ seedList c8wgrid [⟨0, 0, 1⟩] := by
  have h := C8_empty_destination_error_iff c8wgrid true [⟨0, 0, 1⟩]
  exact ⟨h.1.mpr (by decide), h.2.1 ⟨0, 0, 1⟩ (by decide) (by decide)⟩

/-- The speed table of the C9 instance: network category 1 at speed 10,
land-cover category 2 at speed 4, default 5, bridge category 99. -/
def c9table : SpeedTable :=
  ⟨fun k => if k = 1 then some 10 else none,
   fun k => if k = 2 then some 4 else none, 5⟩

/-- C9 at concrete inputs: water without the bridge category is
impassable regardless of mapped speeds; otherwise a mapped network
category beats the mapped land-cover category; the land-cover speed is
used when the network is absent; and the default when both are
unmapped. -/
theorem C9_witness :
    assignSpeed c9table 99 true (some 1) (some 2) = none ∧
    assignSpeed c9table 99 false (some 1) (some 2) = some 10 ∧
    assignSpeed c9table 99 false none (some 2) = some 4 ∧
    assignSpeed c9table 99 false none none = some c9table.deflt := by
  have h := C9_speed_precedence
  refine ⟨?_, ?_, ?_, ?_⟩
  · exact h.1 c9table 99 (some 1) (some 2) (by decide)
  · exact h.2.1 c9table 99 false (some 1) (some 2) 1 10 rfl rfl
      (fun hw => Bool.noConfusion hw)
  · exact h.2.2.1 c9table 99 false none (some 2) 2 4
      (fun hw => Bool.noConfusion hw) rfl rfl rfl
  · exact h.2.2.2 c9table 99 false none none
      (fun hw => Bool.noConfusion hw) rfl rfl

/-- C10 at a concrete input: an invocation with scenario flags but no
destination points still falls back to the OpenStreetMap health
facilities. -/
theorem C10_witness :
    accessDestSource ⟨some false, some true, some false, none⟩ =
      DestSource.osmHealthFacilities :=
  C10_access_defaults.2.2 ⟨some false, some true, some false, none⟩ rfl

end GeoHealth
